import Mathlib

/-!
# FreeBirdPDF — verification of the document-state and page-manipulation engine

A shallow embedding of the model logic of `freebird/ui/pdf_view.py` and
`freebird/utils/thumbnail.py`:

* `SearchResult` with its wrap-around match-cursor navigation
  (`navigate_to_match`);
* `PDFViewWidget`, the per-document state (page list, cursor, zoom, modified
  flag, render cache, assembly flag) together with its operations
  (`load_pdf`, `goto_page`, `apply_zoom`, `search_text`, `find_next`,
  `save_as`, `delete_page`, `move_page_to`, `add_current_page_to_assembly`
  / `add_all_pages_to_assembly`) and the thumbnail dialog's `apply_changes`.

Modelling conventions:
* Pages are abstract handles of a type parameter `α`; a fitz document is the
  ordered list of its pages (`Option (List α)`, `none` when no document is
  open).  The PDF engine (fitz) is external: engine calls that copy pages are
  modelled by the corresponding list operations, engine calls that can fail
  (opening a file, saving) take the engine outcome as an explicit argument.
* Python floats (zoom factors) are modelled as exact rationals; the code only
  clamps and compares them, so no rounding behaviour is involved.
* The pixmap render cache is modelled by its key list `(page, zoom)` in
  Python-dict insertion order (oldest first); the cached bitmaps themselves
  are irrelevant to every claim.  Rasterisation is modelled as always
  succeeding (render failure only substitutes a placeholder bitmap and caches
  nothing).
* GUI side effects (labels, tab titles, message boxes, menus) are outside the
  model; confirmation dialogs and file pickers become explicit parameters.
-/

/-! ## SearchResult (pdf_view.py lines 20–110) -/

/-- State of `SearchResult`: `results` is the Python dict
`{page_index: [rect, ...]}` as an association list in insertion order
(pages are scanned in ascending order, so each key occurs once), and the
cursor pair is `(current_page, current_match)` with `-1` meaning unset. -/
structure SearchResult (α : Type) where
  query : String
  results : List (Nat × List α)
  total_matches : Nat
  current_page : Int
  current_match : Int
deriving Repr, DecidableEq

namespace SearchResult

variable {α : Type}

/-- `SearchResult.reset`. -/
def reset : SearchResult α :=
  { query := "", results := [], total_matches := 0,
    current_page := -1, current_match := -1 }

/-- `SearchResult.add_matches` (only non-empty rect lists are recorded). -/
def add_matches (s : SearchResult α) (page_index : Nat) (rects : List α) :
    SearchResult α :=
  if rects.isEmpty then s
  else
    { s with results := s.results ++ [(page_index, rects)],
             total_matches := s.total_matches + rects.length }

/-- `SearchResult.has_results`. -/
def has_results (s : SearchResult α) : Bool :=
  0 < s.total_matches

/-- Python `self.results[p]` (dict access; `[]` as the out-of-model default —
all accesses in the source happen at keys that are present). -/
def lookup (s : SearchResult α) (p : Nat) : List α :=
  ((s.results.find? (fun e => e.1 == p)).map Prod.snd).getD []

/-- Python `sorted(self.results.keys())`. -/
def pages (s : SearchResult α) : List Nat :=
  (s.results.map Prod.fst).insertionSort (· ≤ ·)

/-- `SearchResult.navigate_to_match`: returns the Python pair
`(page, rect)` (`none` for the `None, -1` returns) together with the updated
state.  Mirrors pdf_view.py lines 65–110 branch for branch. -/
def navigate_to_match [Inhabited α] (forward : Bool) (s : SearchResult α) :
    Option (Nat × α) × SearchResult α :=
  if ¬ s.has_results then (none, s)
  else
    match s.pages with
    | [] => (none, s)
    | p0 :: _ =>
      if s.current_page < 0 ∨ s.current_match < 0 then
        let s1 := { s with current_page := (p0 : Int), current_match := 0 }
        (some (p0, (s1.lookup p0).getD 0 default), s1)
      else
        let pgs := s.pages
        let cp := s.current_page.toNat
        let s1 :=
          if forward then
            if s.current_match + 1 < ((s.lookup cp).length : Int) then
              { s with current_match := s.current_match + 1 }
            else
              let cpi := pgs.indexOf cp
              if cpi + 1 < pgs.length then
                { s with current_page := (pgs.getD (cpi + 1) 0 : Int),
                         current_match := 0 }
              else
                { s with current_page := (p0 : Int), current_match := 0 }
          else
            if 0 < s.current_match then
              { s with current_match := s.current_match - 1 }
            else
              let cpi := pgs.indexOf cp
              if 0 < cpi then
                let np := pgs.getD (cpi - 1) 0
                { s with current_page := (np : Int),
                         current_match := ((s.lookup np).length : Int) - 1 }
              else
                let np := pgs.getD (pgs.length - 1) 0
                { s with current_page := (np : Int),
                         current_match := ((s.lookup np).length : Int) - 1 }
        (some (s1.current_page.toNat,
               (s1.lookup s1.current_page.toNat).getD s1.current_match.toNat default),
         s1)

/-- The state reached by one `navigate_to_match` call (the cursor movement of
`find_next`). -/
def navNext [Inhabited α] (forward : Bool) (s : SearchResult α) : SearchResult α :=
  (navigate_to_match forward s).2

/-- The cursor pair of a `SearchResult`, as stored (`current_page`,
`current_match`). -/
def cursorPair (s : SearchResult α) : Int × Int :=
  (s.current_page, s.current_match)

/-- All matches of an active search in traversal order: pages in ascending
index order, matches within a page in recorded (document text) order, each
match identified by `(page, index of its rectangle on the page)`. -/
def allMatches (s : SearchResult α) : List (Int × Int) :=
  s.pages.flatMap (fun p =>
    (List.range (s.lookup p).length).map
      (fun (j : Nat) => ((p : Int), (j : Int))))

/-- The per-page match counts of an active search, in ascending page
order. -/
def countsOf (s : SearchResult α) : List Nat :=
  s.pages.map (fun p => (s.lookup p).length)

/-- The state `s` with its cursor placed at the abstract position `x`: the
first component indexes into the sorted page list, the second is the match
index on that page. -/
def setCur (s : SearchResult α) (x : Nat × Nat) : SearchResult α :=
  { s with current_page := ((s.pages.getD x.1 0 : Nat) : Int),
           current_match := (x.2 : Int) }

/-- Well-formedness of an accumulated search result: distinct page keys,
only non-empty match lists recorded, and `total_matches` is the sum of the
per-page counts.  `search_text` establishes this. -/
def WF (s : SearchResult α) : Prop :=
  (s.results.map Prod.fst).Nodup ∧
  (∀ e ∈ s.results, e.2 ≠ []) ∧
  s.total_matches = (s.results.map (fun e => e.2.length)).sum

end SearchResult

/-! ## PDFViewWidget (pdf_view.py lines 115–970) -/

/-- Per-document state of `PDFViewWidget`.  `doc` is the fitz document as its
ordered page list (`none` = no document); `pixmap_cache` is the render cache
as its key list `(page, zoom)` in Python-dict insertion order. -/
structure PDFViewWidget (α : Type) where
  doc : Option (List α)
  current_filepath : Option String
  current_page : Nat
  total_pages : Nat
  zoom_factor : ℚ
  is_modified : Bool
  pixmap_cache : List (Nat × ℚ)
  is_assembly_target : Bool
  search_results : SearchResult α
deriving Repr, DecidableEq

namespace PDFViewWidget

variable {α : Type}

/-- The cache produced by `display_page` (lines 200–300): on a cache miss for
a valid current page the key `(current_page, zoom_factor)` is appended, and
if the cache then exceeds 10 entries the oldest-inserted key
(`pop(next(iter(...)))`) is dropped.  Every other branch leaves the cache
unchanged. -/
def display_cache (w : PDFViewWidget α) : List (Nat × ℚ) :=
  if w.total_pages = 0 then w.pixmap_cache
  else
    match w.doc with
    | none => w.pixmap_cache
    | some _ =>
      if w.current_page < w.total_pages then
        let key := (w.current_page, w.zoom_factor)
        if key ∈ w.pixmap_cache then w.pixmap_cache
        else
          let c1 := w.pixmap_cache ++ [key]
          if 10 < c1.length then c1.tail else c1
      else w.pixmap_cache

/-- `display_page`: renders the current page (rendering itself and the drawn
search highlights are outside the model) and updates only the cache. -/
def display_page (w : PDFViewWidget α) : PDFViewWidget α :=
  { w with pixmap_cache := w.display_cache }

/-- `close_document` (lines 954–970): a no-op when no document is open,
otherwise releases the handle and resets all fields. -/
def close_document (w : PDFViewWidget α) : PDFViewWidget α :=
  match w.doc with
  | none => w
  | some _ =>
    { w with doc := none, current_filepath := none, total_pages := 0,
             current_page := 0, is_modified := false, pixmap_cache := [],
             search_results := SearchResult.reset }

/-- `load_pdf` (lines 170–198).  `opened` is the outcome of
`fitz.open(filepath)`: `some pages` on success, `none` when the engine
raises. -/
def load_pdf (w : PDFViewWidget α) (filepath : String)
    (opened : Option (List α)) : Bool × PDFViewWidget α :=
  if w.is_assembly_target then (false, w)
  else
    let w1 := close_document w
    match opened with
    | some pgs =>
      let w2 := { w1 with doc := some pgs, current_filepath := some filepath,
                          total_pages := pgs.length, current_page := 0,
                          zoom_factor := 1, is_modified := false,
                          pixmap_cache := [],
                          search_results := SearchResult.reset }
      if 0 < pgs.length then (true, display_page w2) else (true, w2)
    | none =>
      (false, { w1 with doc := none, current_filepath := none,
                        total_pages := 0 })

/-- `goto_page` (lines 313–320).  The index is a Python int, hence `Int`. -/
def goto_page (w : PDFViewWidget α) (page_index : Int) : Bool × PDFViewWidget α :=
  match w.doc with
  | none => (false, w)
  | some _ =>
    if 0 ≤ page_index ∧ page_index < (w.total_pages : Int) then
      if (w.current_page : Int) ≠ page_index then
        (true, display_page { w with current_page := page_index.toNat })
      else (false, w)
    else (false, w)

/-- `apply_zoom` (lines 338–350): clamp to `[0.1, 5.0]`, update only on a
change of more than `0.01`. -/
def apply_zoom (w : PDFViewWidget α) (factor : ℚ) : Bool × PDFViewWidget α :=
  match w.doc with
  | none => (false, w)
  | some _ =>
    if 0 < factor then
      let factor := max (1/10) (min factor 5)
      if 1/100 < |w.zoom_factor - factor| then
        (true, display_page { w with zoom_factor := factor, pixmap_cache := [] })
      else (false, w)
    else (false, w)

/-- `search_text` (lines 352–399).  `found` is the per-page outcome of the
engine scan `page.search_for(query, flags)` over pages `0, 1, ...` in
ascending order (so keys are distinct); empty rect lists are skipped by
`add_matches`. -/
def search_text [Inhabited α] (w : PDFViewWidget α) (query : String)
    (found : List (Nat × List α)) : Bool × PDFViewWidget α :=
  match w.doc with
  | none => (false, w)
  | some _ =>
    if query = "" then (false, w)
    else
      let sr0 : SearchResult α := { SearchResult.reset with query := query }
      let sr1 := found.foldl (fun s e => s.add_matches e.1 e.2) sr0
      let w1 := { w with search_results := sr1, pixmap_cache := [] }
      if sr1.has_results then
        let nav := sr1.navigate_to_match true
        let w2 := { w1 with search_results := nav.2 }
        match nav.1 with
        | some (p, _) => (true, (goto_page w2 (p : Int)).2)
        | none => (true, w2)
      else (false, display_page w1)

/-- `find_next` (lines 401–420): moves the search cursor via
`navigate_to_match`, then either navigates to the new page or clears the
cache and re-renders in place. -/
def find_next [Inhabited α] (w : PDFViewWidget α) (forward : Bool) :
    Bool × PDFViewWidget α :=
  if ¬ w.search_results.has_results then (false, w)
  else
    let nav := w.search_results.navigate_to_match forward
    let w1 := { w with search_results := nav.2 }
    match nav.1 with
    | some (p, _) =>
      if p ≠ w1.current_page then (true, (goto_page w1 (p : Int)).2)
      else (true, display_page { w1 with pixmap_cache := [] })
    | none => (false, w1)

/-- `save_as` (lines 472–525).  `save_path` is the file picker's outcome
(`none` = cancelled); `saveOk` tells whether the engine call
`doc.save(path, garbage=4, deflate=True)` succeeds (it writes the document to
disk, mutating none of the modelled state). -/
def save_as (w : PDFViewWidget α) (save_path : Option String) (saveOk : Bool) :
    Bool × PDFViewWidget α :=
  match w.doc with
  | none => (false, w)
  | some _ =>
    match save_path with
    | none => (false, w)
    | some p =>
      if saveOk then
        (true, { w with current_filepath := some p,
                        is_assembly_target := false, is_modified := false })
      else (false, w)

/-- `delete_page` (lines 527–580).  `confirm` is the user's answer to the
confirmation dialog. -/
def delete_page (w : PDFViewWidget α) (confirm : Bool) : Bool × PDFViewWidget α :=
  match w.doc with
  | none => (false, w)
  | some pgs =>
    if w.total_pages ≤ 1 then (false, w)
    else if confirm then
      let w1 := { w with doc := some (pgs.eraseIdx w.current_page),
                         total_pages := w.total_pages - 1,
                         is_modified := true, pixmap_cache := [] }
      let w2 :=
        if w1.total_pages ≤ w1.current_page ∧ 0 < w1.total_pages then
          { w1 with current_page := w1.total_pages - 1 }
        else if w1.total_pages = 0 then { w1 with current_page := 0 }
        else w1
      (true, display_page w2)
    else (false, w)

/-- The page order built by the two copy loops of `move_page_to`
(lines 701–732): each entry is the source index copied by one
`insert_pdf(..., from_page=i, to_page=i)` call, in execution order. -/
def newOrderMove (a b n : Nat) : List Nat :=
  if a < b then
    List.range a ++ List.range' (a + 1) (b - a) ++ [a] ++
      List.range' (b + 1) (n - (b + 1))
  else
    List.range b ++ [a] ++ List.range' b (a - b) ++
      List.range' (a + 1) (n - (a + 1))

/-- `move_page_to` (lines 687–758): whole-document reconstruction by copying
pages in the target order, then replace the handle, update the count, mark
modified, clear the cache, and let the cursor follow the moved page. -/
def move_page_to [Inhabited α] (w : PDFViewWidget α) (from_index to_index : Int) :
    Bool × PDFViewWidget α :=
  match w.doc with
  | none => (false, w)
  | some pgs =>
    if 0 ≤ from_index ∧ from_index < (w.total_pages : Int) ∧
       0 ≤ to_index ∧ to_index < (w.total_pages : Int) then
      if from_index = to_index then (true, w)
      else
        let a := from_index.toNat
        let b := to_index.toNat
        let newPages := (newOrderMove a b w.total_pages).map
          (fun i => pgs.getD i default)
        let w1 := { w with doc := some newPages,
                           total_pages := newPages.length,
                           is_modified := true, pixmap_cache := [],
                           current_page := if w.current_page = a then b
                                           else w.current_page }
        (true, display_page w1)
    else (false, w)

/-- `ThumbnailViewDialog.apply_changes` (thumbnail.py lines 260–305).
`new_order` is the list of original page indices read off the thumbnail grid.
An identity order is accepted without touching the document.  Otherwise a new
document is built by `insert_pdf` from each listed original index; an
out-of-range index makes the engine raise, which the handler catches, leaving
the document untouched (error surfaced, dialog not accepted).  The function
performs no permutation validation beyond the identity test.  Returns whether
the dialog was accepted. -/
def apply_changes [Inhabited α] (w : PDFViewWidget α) (new_order : List Nat) :
    Bool × PDFViewWidget α :=
  if new_order = List.range new_order.length then (true, w)
  else
    match w.doc with
    | none => (false, w)
    | some pgs =>
      if new_order.all (fun i => i < w.total_pages) then
        let newPages := new_order.map (fun i => pgs.getD i default)
        let w1 := { w with doc := some newPages,
                           total_pages := newPages.length,
                           current_page := min w.current_page (newPages.length - 1),
                           pixmap_cache := [], is_modified := true }
        (true, display_page w1)
      else (false, w)

/-- `add_current_page_to_assembly` (lines 874–912), assembly side: the caller
guard (the source widget has a document and a valid current page) is the
context; `page` is the transplanted page handle.  The engine appends it, the
count is refreshed from the engine, the cursor navigates to the new page, an
empty→non-empty transition forces a cache clear and re-render, and the
assembly is marked modified. -/
def add_current_page_to_assembly (asm : PDFViewWidget α) (page : α) :
    PDFViewWidget α :=
  match asm.doc with
  | none => asm
  | some target =>
    let was_empty := asm.total_pages = 0
    let target1 := target ++ [page]
    let a1 := { asm with doc := some target1, total_pages := target1.length }
    let new_page_index : Nat := a1.total_pages - 1
    let a2 := (goto_page a1 (new_page_index : Int)).2
    let a3 := if was_empty then display_page { a2 with pixmap_cache := [] }
              else a2
    { a3 with is_modified := true }

/-- `add_all_pages_to_assembly` (lines 914–952), assembly side: `srcPages` is
the source document's page list (the caller guard requires it non-empty). -/
def add_all_pages_to_assembly (asm : PDFViewWidget α) (srcPages : List α) :
    PDFViewWidget α :=
  match asm.doc with
  | none => asm
  | some target =>
    let was_empty := asm.total_pages = 0
    let num_pages_before := asm.total_pages
    let target1 := target ++ srcPages
    let a1 := { asm with doc := some target1, total_pages := target1.length }
    let a2 := (goto_page a1 (num_pages_before : Int)).2
    let a3 := if was_empty then display_page { a2 with pixmap_cache := [] }
              else a2
    { a3 with is_modified := true }

end PDFViewWidget

/-! ## Statement helpers -/

namespace PDFViewWidget

/-- The index map the move claim describes: after `movePage(a, b)` the page at
position `k` of the rebuilt document is the page that was at position
`movedIndex a b k` of the old document (the moved page sits at `b`, the pages
between `a` and `b` shift one position toward `a`, all others stay put). -/
def movedIndex (a b k : Nat) : Nat :=
  if a < b then
    if k < a then k else if k < b then k + 1 else if k = b then a else k
  else
    if k < b then k else if k = b then a else if k ≤ a then k - 1 else k

/-- Cache sanity at an operation boundary: at most 10 entries, and no entry
for a page index at or beyond the current page count. -/
def cacheOK (w : PDFViewWidget α) : Prop :=
  w.pixmap_cache.length ≤ 10 ∧ ∀ e ∈ w.pixmap_cache, e.1 < w.total_pages

end PDFViewWidget

/-! ## Abstract cursor positions for the search-navigation proof

A well-formed `SearchResult` is abstracted by the list `c` of per-page match
counts (in ascending page order).  A cursor is a pair `(i, j)`: index of the
page within the sorted page list, index of the match on that page.
`succPos`/`predPos` are the abstract forward/backward steps performed by
`navigate_to_match`, and `decode c k` is the cursor sitting at linear
position `k` of the traversal. -/

/-- Count of matches on the `i`-th page with matches. -/
def cnt (c : List Nat) (i : Nat) : Nat :=
  c.getD i 0

/-- Validity of an abstract cursor. -/
def PosValid (c : List Nat) (x : Nat × Nat) : Prop :=
  x.1 < c.length ∧ x.2 < cnt c x.1

/-- Abstract forward step of `navigate_to_match`. -/
def succPos (c : List Nat) (x : Nat × Nat) : Nat × Nat :=
  if x.2 + 1 < cnt c x.1 then (x.1, x.2 + 1)
  else if x.1 + 1 < c.length then (x.1 + 1, 0)
  else (0, 0)

/-- Abstract backward step of `navigate_to_match`. -/
def predPos (c : List Nat) (x : Nat × Nat) : Nat × Nat :=
  if 0 < x.2 then (x.1, x.2 - 1)
  else if 0 < x.1 then (x.1 - 1, cnt c (x.1 - 1) - 1)
  else (c.length - 1, cnt c (c.length - 1) - 1)

/-- The cursor at linear position `k` of the traversal order. -/
def decode : List Nat → Nat → Nat × Nat
  | [], _ => (0, 0)
  | n :: rest, k =>
    if k < n then (0, k)
    else ((decode rest (k - n)).1 + 1, (decode rest (k - n)).2)

/-- All abstract cursor positions in traversal order. -/
def posEnum : List Nat → List (Nat × Nat)
  | [] => []
  | n :: rest =>
    (List.range n).map (fun j => (0, j)) ++
      (posEnum rest).map (fun q => (q.1 + 1, q.2))

/-! ## Concrete example states (used by witnesses and counterexamples) -/

/-- A plain 4-page document, cursor at page 0, zoom 1, unmodified. -/
def exDoc4 : PDFViewWidget Nat :=
  { doc := some [10, 20, 30, 40], current_filepath := some "x.pdf",
    current_page := 0, total_pages := 4, zoom_factor := 1,
    is_modified := false, pixmap_cache := [], is_assembly_target := false,
    search_results := SearchResult.reset }

/-- A non-empty assembly document whose current page is cached. -/
def exAsm1 : PDFViewWidget Nat :=
  { doc := some [5], current_filepath := some "assembly:/Untitled Assembly 1",
    current_page := 0, total_pages := 1, zoom_factor := 1,
    is_modified := false, pixmap_cache := [(0, 1)], is_assembly_target := true,
    search_results := SearchResult.reset }

/-- An empty assembly document. -/
def exAsm0 : PDFViewWidget Nat :=
  { doc := some [], current_filepath := some "assembly:/Untitled Assembly 2",
    current_page := 0, total_pages := 0, zoom_factor := 1,
    is_modified := false, pixmap_cache := [], is_assembly_target := true,
    search_results := SearchResult.reset }

/-- A just-completed search with two matches on one page, cursor still in the
pre-search position `(-1, -1)`. -/
def exSearch2 : SearchResult Nat :=
  { query := "q", results := [(0, [7, 8])], total_matches := 2,
    current_page := -1, current_match := -1 }

/-- A just-completed search with matches on two pages (recorded out of page
order by the association list, sorted by navigation), cursor unset. -/
def exSearch3 : SearchResult Nat :=
  { query := "q", results := [(1, [9]), (3, [7, 8])], total_matches := 3,
    current_page := -1, current_match := -1 }

/-! ## Basic lemmas -/

open PDFViewWidget SearchResult

theorem display_page_doc {α : Type} (w : PDFViewWidget α) :
    (display_page w).doc = w.doc := rfl

theorem display_page_total {α : Type} (w : PDFViewWidget α) :
    (display_page w).total_pages = w.total_pages := rfl

theorem display_page_current {α : Type} (w : PDFViewWidget α) :
    (display_page w).current_page = w.current_page := rfl

theorem display_page_zoom {α : Type} (w : PDFViewWidget α) :
    (display_page w).zoom_factor = w.zoom_factor := rfl

theorem display_page_modified {α : Type} (w : PDFViewWidget α) :
    (display_page w).is_modified = w.is_modified := rfl

/-! ## C10 — loading into an assembly widget is refused -/

/-- C10: for every document whose `is_assembly_target` flag is true,
`load_pdf` returns `false` and leaves the whole widget state unchanged, no
matter what the engine would have produced for the path. -/
theorem C10_load_refused_for_assembly {α : Type} (w : PDFViewWidget α)
    (h : w.is_assembly_target = true) (filepath : String)
    (opened : Option (List α)) :
    load_pdf w filepath opened = (false, w) := by
  simp [load_pdf, h]

theorem C10_witness :
    exAsm1.is_assembly_target = true ∧
    load_pdf exAsm1 "y.pdf" (some [1, 2]) = (false, exAsm1) :=
  ⟨rfl, C10_load_refused_for_assembly exAsm1 rfl "y.pdf" (some [1, 2])⟩

/-! ## C6 — save success and failure -/

/-- C6: with a document loaded, a successful `save_as` to path `p` sets
`current_filepath = p`, clears the assembly flag and the modified flag, and
changes nothing else; a failing engine save (or a cancelled picker) returns
`false` with the state unchanged.  Both outcomes are ordinary return values:
`save_as` is a total function, so no fault escapes the operation. -/
theorem C6_save_as {α : Type} (w : PDFViewWidget α) (pgs : List α)
    (hdoc : w.doc = some pgs) (p : String) :
    save_as w (some p) true =
      (true, { w with current_filepath := some p, is_assembly_target := false,
                      is_modified := false }) ∧
    (∀ path : Option String, save_as w path false = (false, w)) := by
  refine ⟨by simp [save_as, hdoc], ?_⟩
  intro path
  cases path <;> simp [save_as, hdoc]

theorem C6_witness :
    exDoc4.doc = some [10, 20, 30, 40] ∧
    save_as exDoc4 (some "out.pdf") true =
      (true, { exDoc4 with current_filepath := some "out.pdf",
                           is_assembly_target := false, is_modified := false }) :=
  ⟨rfl, (C6_save_as exDoc4 [10, 20, 30, 40] rfl "out.pdf").1⟩

/-! ## C7 — identity permutation is a successful no-op -/

/-- C7: `apply_changes` with the identity order of `[0, pageCount)` reports
success (the dialog is accepted) and leaves the widget — page count, page
list, modified flag, everything — unchanged. -/
theorem C7_identity_permutation {α : Type} [Inhabited α] (w : PDFViewWidget α) :
    apply_changes w (List.range w.total_pages) = (true, w) := by
  simp [apply_changes]

theorem C7_witness :
    apply_changes exDoc4 (List.range exDoc4.total_pages) = (true, exDoc4) :=
  C7_identity_permutation exDoc4

/-! ## C8 — zoom clamping -/

/-- C8 (amended): for a loaded document and any *positive* factor,
`apply_zoom` clamps the factor to `[0.1, 5.0]`, and reports `true` — updating
the zoom to the clamped value and discarding the cache before re-rendering —
exactly when the clamped value differs from the current zoom by more than
`0.01`, otherwise it is a no-op reporting `false`.  A non-positive factor is
rejected outright as a no-op reporting `false` (the original claim's "every
input factor" fails there).  Whenever `0.1 ≤ zoomFactor ≤ 5.0` held before a
call, it holds after it, for every input factor. -/
theorem C8_zoom_amended {α : Type} (w : PDFViewWidget α) (pgs : List α)
    (hdoc : w.doc = some pgs) (factor : ℚ) (hpos : 0 < factor) :
    (1/100 < |w.zoom_factor - max (1/10) (min factor 5)| →
      apply_zoom w factor =
        (true, display_page { w with zoom_factor := max (1/10) (min factor 5),
                                     pixmap_cache := [] })) ∧
    (|w.zoom_factor - max (1/10) (min factor 5)| ≤ 1/100 →
      apply_zoom w factor = (false, w)) ∧
    (1/10 ≤ max (1/10) (min factor 5) ∧ max (1/10) (min factor 5) ≤ 5) ∧
    (∀ g : ℚ, g ≤ 0 → apply_zoom w g = (false, w)) ∧
    (∀ g : ℚ, 1/10 ≤ w.zoom_factor → w.zoom_factor ≤ 5 →
      1/10 ≤ (apply_zoom w g).2.zoom_factor ∧
        (apply_zoom w g).2.zoom_factor ≤ 5) := by
  refine ⟨?_, ?_, ⟨le_max_left _ _, ?_⟩, ?_, ?_⟩
  · intro h
    simp only [apply_zoom, hdoc, if_pos hpos, if_pos h]
  · intro h
    simp only [apply_zoom, hdoc, if_pos hpos, if_neg (not_lt.mpr h)]
  · exact max_le (by norm_num) (min_le_right _ _)
  · intro g hg
    simp only [apply_zoom, hdoc, if_neg (not_lt.mpr hg)]
  · intro g hlo hhi
    by_cases hg : 0 < g
    · by_cases hch : 1/100 < |w.zoom_factor - max (1/10) (min g 5)|
      · simp only [apply_zoom, hdoc, if_pos hg, if_pos hch]
        exact ⟨le_max_left _ _, max_le (by norm_num) (min_le_right _ _)⟩
      · simp only [apply_zoom, hdoc, if_pos hg, if_neg hch]
        exact ⟨hlo, hhi⟩
    · simp only [apply_zoom, hdoc, if_neg hg]
      exact ⟨hlo, hhi⟩

/-- C8 counterexample: the claim quantifies over *every* input factor, but on
the loaded 4-page document with zoom `1.0` the call `apply_zoom 0` returns
`false` and changes nothing, although the clamped value `0.1` differs from
the current zoom by more than `0.01` (so the claim demands `true` and an
update to `0.1`). -/
theorem C8_counterexample :
    apply_zoom exDoc4 0 = (false, exDoc4) ∧
    exDoc4.zoom_factor = 1 ∧
    1/100 < |exDoc4.zoom_factor - max (1/10) (min (0 : ℚ) 5)| := by
  refine ⟨rfl, rfl, ?_⟩
  rw [show |exDoc4.zoom_factor - max (1/10) (min (0 : ℚ) 5)| = 9/10 by
    rw [show exDoc4.zoom_factor = 1 from rfl, abs_of_nonneg] <;> norm_num]
  norm_num

theorem C8_witness :
    exDoc4.doc = some [10, 20, 30, 40] ∧ (0 : ℚ) < 7 ∧
    apply_zoom exDoc4 7 =
      (true, display_page { exDoc4 with zoom_factor := max (1/10) (min 7 5),
                                        pixmap_cache := [] }) :=
  ⟨rfl, by norm_num,
   (C8_zoom_amended exDoc4 [10, 20, 30, 40] rfl 7 (by norm_num)).1 (by
     rw [show |exDoc4.zoom_factor - max (1/10) (min (7:ℚ) 5)| = 4 by
       rw [show exDoc4.zoom_factor = 1 from rfl, abs_of_nonpos] <;> norm_num]
     norm_num)⟩

/-! ## C2 — move_page_to -/

theorem newOrderMove_length (a b n : Nat) (ha : a < n) (hb : b < n) :
    (newOrderMove a b n).length = n := by
  unfold newOrderMove
  split <;> simp <;> omega

theorem newOrderMove_getElem? (a b n k : Nat) (ha : a < n) (hb : b < n)
    (hk : k < n) :
    (newOrderMove a b n)[k]? = some (movedIndex a b k) := by
  unfold newOrderMove movedIndex
  by_cases hab : a < b
  · rw [if_pos hab, if_pos hab, show [a] = List.range' a 1 from rfl]
    rw [List.getElem?_append, List.getElem?_append, List.getElem?_append]
    simp only [List.length_append, List.length_range, List.length_range']
    split_ifs <;>
      first
      | (exfalso; omega)
      | (simp (disch := omega) only [List.getElem?_range, List.getElem?_range',
           Option.some.injEq]; all_goals omega)
  · rw [if_neg hab, if_neg hab, show [a] = List.range' a 1 from rfl]
    rw [List.getElem?_append, List.getElem?_append, List.getElem?_append]
    simp only [List.length_append, List.length_range, List.length_range']
    split_ifs <;>
      first
      | (exfalso; omega)
      | (simp (disch := omega) only [List.getElem?_range, List.getElem?_range',
           Option.some.injEq]; all_goals omega)

theorem newOrderMove_map_getD {α : Type} [Inhabited α] (pgs : List α)
    (a b k : Nat) (ha : a < pgs.length) (hb : b < pgs.length)
    (hk : k < pgs.length) :
    ((newOrderMove a b pgs.length).map (fun i => pgs.getD i default)).getD k default
      = pgs.getD (movedIndex a b k) default := by
  have hlen : (newOrderMove a b pgs.length).length = pgs.length :=
    newOrderMove_length _ _ _ ha hb
  have hkl : k < ((newOrderMove a b pgs.length).map
      (fun i => pgs.getD i default)).length := by
    simpa [hlen] using hk
  rw [List.getD_eq_getElem _ _ hkl, List.getElem_map]
  obtain ⟨hb2, he⟩ := List.getElem?_eq_some_iff.1
    (newOrderMove_getElem? a b pgs.length k ha hb hk)
  rw [he]

theorem movedIndex_self (a b : Nat) : movedIndex a b b = a := by
  unfold movedIndex
  split_ifs <;> omega

/-- C2: for valid distinct indices `a ≠ b`, `move_page_to` succeeds and
rebuilds the document so that the moved page sits at index `b` and every
index `k` now holds the page formerly at `movedIndex a b k` (the pages
between `a` and `b` shift one position toward `a`, all others keep their
position); the page count is unchanged, the document is marked modified, and
the cursor becomes `b` exactly when it equalled `a`, keeping its numeric
value otherwise. -/
theorem C2_move_page {α : Type} [Inhabited α] (w : PDFViewWidget α)
    (pgs : List α) (hdoc : w.doc = some pgs) (hlen : w.total_pages = pgs.length)
    (a b : Nat) (ha : a < w.total_pages) (hb : b < w.total_pages) (hab : a ≠ b) :
    (move_page_to w (a : Int) (b : Int)).1 = true ∧
    (move_page_to w (a : Int) (b : Int)).2.total_pages = w.total_pages ∧
    (move_page_to w (a : Int) (b : Int)).2.is_modified = true ∧
    (move_page_to w (a : Int) (b : Int)).2.current_page =
      (if w.current_page = a then b else w.current_page) ∧
    ∃ pgs2, (move_page_to w (a : Int) (b : Int)).2.doc = some pgs2 ∧
      pgs2.length = pgs.length ∧
      pgs2.getD b default = pgs.getD a default ∧
      ∀ k, k < pgs.length →
        pgs2.getD k default = pgs.getD (movedIndex a b k) default := by
  have hg1 : (a : Int) < (w.total_pages : Int) := by exact_mod_cast ha
  have hg2 : (b : Int) < (w.total_pages : Int) := by exact_mod_cast hb
  have hne : ¬ ((a : Int) = (b : Int)) := by exact_mod_cast hab
  simp only [move_page_to, hdoc, Int.natCast_nonneg, hg1, hg2, and_true,
    true_and, if_true, if_neg hne, Int.toNat_ofNat, display_page]
  rw [hlen] at ha hb ⊢
  have hlen2 := newOrderMove_length a b pgs.length ha hb
  refine ⟨by simpa using hlen2, ?_⟩
  exact ⟨_, rfl, by simpa using hlen2,
    by rw [newOrderMove_map_getD pgs a b b ha hb hb, movedIndex_self],
    fun k hk => newOrderMove_map_getD pgs a b k ha hb hk⟩

theorem C2_witness :
    exDoc4.doc = some [10, 20, 30, 40] ∧ (0 : Nat) ≠ 2 ∧ exDoc4.current_page = 0 ∧
    ((move_page_to exDoc4 ((0 : Nat) : Int) ((2 : Nat) : Int)).1 = true ∧
     (move_page_to exDoc4 ((0 : Nat) : Int) ((2 : Nat) : Int)).2.total_pages =
       exDoc4.total_pages ∧
     (move_page_to exDoc4 ((0 : Nat) : Int) ((2 : Nat) : Int)).2.is_modified = true ∧
     (move_page_to exDoc4 ((0 : Nat) : Int) ((2 : Nat) : Int)).2.current_page =
       (if exDoc4.current_page = 0 then 2 else exDoc4.current_page) ∧
     ∃ pgs2,
       (move_page_to exDoc4 ((0 : Nat) : Int) ((2 : Nat) : Int)).2.doc = some pgs2 ∧
       pgs2.length = ([10, 20, 30, 40] : List Nat).length ∧
       pgs2.getD 2 default = ([10, 20, 30, 40] : List Nat).getD 0 default ∧
       ∀ k, k < ([10, 20, 30, 40] : List Nat).length →
         pgs2.getD k default =
           ([10, 20, 30, 40] : List Nat).getD (movedIndex 0 2 k) default) :=
  ⟨rfl, by decide, rfl,
   C2_move_page exDoc4 [10, 20, 30, 40] rfl rfl 0 2 (by decide) (by decide)
     (by decide)⟩

/-! ## C3 — delete_page -/

theorem display_cache_empty {α : Type} (w : PDFViewWidget α) (pgs : List α)
    (hdoc : w.doc = some pgs) (hcache : w.pixmap_cache = [])
    (h0 : w.total_pages ≠ 0) (hcur : w.current_page < w.total_pages) :
    w.display_cache = [(w.current_page, w.zoom_factor)] := by
  simp [display_cache, hdoc, hcache, h0, hcur]

/-- C3: `delete_page` refuses (returns `false`, state untouched) whenever the
document has at most one page, regardless of the confirmation answer; on a
document with more than one page a confirmed deletion succeeds: the page at
`current_page` is removed, `total_pages` drops by exactly one (and matches
the engine's live count), the document is marked modified, the pre-deletion
cache is discarded (the cache afterwards holds only the freshly re-rendered
current page), and the cursor satisfies `current_page < total_pages`. -/
theorem C3_delete_page {α : Type} (w : PDFViewWidget α) (pgs : List α)
    (hdoc : w.doc = some pgs) (hlen : w.total_pages = pgs.length)
    (hcur : w.current_page < w.total_pages) :
    (w.total_pages ≤ 1 → ∀ confirm, delete_page w confirm = (false, w)) ∧
    (1 < w.total_pages →
      (delete_page w true).1 = true ∧
      (delete_page w true).2.doc = some (pgs.eraseIdx w.current_page) ∧
      (delete_page w true).2.total_pages = w.total_pages - 1 ∧
      (delete_page w true).2.total_pages = (pgs.eraseIdx w.current_page).length ∧
      (delete_page w true).2.is_modified = true ∧
      (delete_page w true).2.current_page < (delete_page w true).2.total_pages ∧
      (delete_page w true).2.pixmap_cache =
        [((delete_page w true).2.current_page, w.zoom_factor)]) := by
  constructor
  · intro hle confirm
    simp [delete_page, hdoc, hle]
  · intro h1
    have h2 : ¬ w.total_pages ≤ 1 := by omega
    have herase : (pgs.eraseIdx w.current_page).length = w.total_pages - 1 := by
      rw [List.length_eraseIdx_of_lt (by omega)]
      omega
    simp only [delete_page, hdoc, if_neg h2, if_pos rfl, if_true]
    by_cases hclamp : w.total_pages - 1 ≤ w.current_page ∧ 0 < w.total_pages - 1
    · rw [if_pos hclamp, display_page,
        display_cache_empty _ _ ?hd ?hc0 ?h0 ?hc]
      case hd => exact rfl
      case hc0 => exact rfl
      case h0 => simp; omega
      case hc => simp; omega
      refine ⟨trivial, rfl, rfl, by simp [herase], rfl, by simp; omega, rfl⟩
    · rw [if_neg hclamp]
      have h3 : ¬ (w.total_pages - 1 = 0) := by omega
      rw [if_neg h3, display_page,
        display_cache_empty _ _ ?hd ?hc0 ?h0 ?hc]
      case hd => exact rfl
      case hc0 => exact rfl
      case h0 => simp; omega
      case hc => simp; omega
      refine ⟨trivial, rfl, rfl, by simp [herase], rfl, by simp; omega, rfl⟩

theorem C3_witness :
    exDoc4.doc = some [10, 20, 30, 40] ∧
    exDoc4.total_pages = ([10, 20, 30, 40] : List Nat).length ∧
    exDoc4.current_page < exDoc4.total_pages ∧ 1 < exDoc4.total_pages ∧
    ((delete_page exDoc4 true).1 = true ∧
     (delete_page exDoc4 true).2.doc =
       some (([10, 20, 30, 40] : List Nat).eraseIdx exDoc4.current_page) ∧
     (delete_page exDoc4 true).2.total_pages = exDoc4.total_pages - 1 ∧
     (delete_page exDoc4 true).2.total_pages =
       (([10, 20, 30, 40] : List Nat).eraseIdx exDoc4.current_page).length ∧
     (delete_page exDoc4 true).2.is_modified = true ∧
     (delete_page exDoc4 true).2.current_page <
       (delete_page exDoc4 true).2.total_pages ∧
     (delete_page exDoc4 true).2.pixmap_cache =
       [((delete_page exDoc4 true).2.current_page, exDoc4.zoom_factor)]) :=
  ⟨rfl, rfl, by decide, by decide,
   (C3_delete_page exDoc4 [10, 20, 30, 40] rfl rfl (by decide)).2 (by decide)⟩

/-! ## C5 — invalid inputs; C9 — transplant into the assembly -/

theorem goto_page_fields {α : Type} (w : PDFViewWidget α) (pgs : List α)
    (hdoc : w.doc = some pgs) (i : Nat) (hi : i < w.total_pages) :
    (goto_page w (i : Int)).2.doc = w.doc ∧
    (goto_page w (i : Int)).2.total_pages = w.total_pages ∧
    (goto_page w (i : Int)).2.current_page = i ∧
    (goto_page w (i : Int)).2.is_modified = w.is_modified ∧
    (goto_page w (i : Int)).2.zoom_factor = w.zoom_factor := by
  have hi2 : (i : Int) < (w.total_pages : Int) := by exact_mod_cast hi
  by_cases h : w.current_page = i
  · simp [goto_page, hdoc, hi2, h, display_page]
  · have h2 : ((w.current_page : Int) ≠ (i : Int)) := by exact_mod_cast h
    simp [goto_page, hdoc, hi2, h2, display_page]

/-- C5 (amended): `goto_page` and `move_page_to` treat any out-of-range index
as a no-op returning `false` (and, being total functions, never raise).
`apply_changes`, however, performs no permutation validation beyond the
identity test: an order containing an out-of-range index only fails because
the engine raises, the handler catching it with the document unchanged and
the dialog not accepted; an order whose entries are all in range is applied
even when it is *not* a permutation of `[0, pageCount)` — the document is
rebuilt from it, mutated and marked modified, and success is reported. -/
theorem C5_invalid_inputs {α : Type} [Inhabited α] (w : PDFViewWidget α) :
    (∀ i : Int, ¬ (0 ≤ i ∧ i < (w.total_pages : Int)) →
      goto_page w i = (false, w)) ∧
    (∀ i j : Int,
      ¬ (0 ≤ i ∧ i < (w.total_pages : Int) ∧ 0 ≤ j ∧ j < (w.total_pages : Int)) →
      move_page_to w i j = (false, w)) ∧
    (∀ new_order : List Nat, new_order ≠ List.range new_order.length →
      ¬ (new_order.all (fun i => i < w.total_pages)) →
      apply_changes w new_order = (false, w)) ∧
    (∀ new_order : List Nat, ∀ pgs, w.doc = some pgs →
      new_order ≠ List.range new_order.length →
      new_order.all (fun i => i < w.total_pages) →
      (apply_changes w new_order).1 = true ∧
      (apply_changes w new_order).2.doc =
        some (new_order.map (fun i => pgs.getD i default)) ∧
      (apply_changes w new_order).2.is_modified = true) := by
  refine ⟨?_, ?_, ?_, ?_⟩
  · intro i h
    rcases hdoc : w.doc with _ | pgs <;> simp [goto_page, hdoc, h]
  · intro i j h
    rcases hdoc : w.doc with _ | pgs <;> simp [move_page_to, hdoc]
    intro h1 h2 h3 h4
    exact absurd ⟨h1, h2, h3, h4⟩ h
  · intro no hne hall
    rcases hdoc : w.doc with _ | pgs <;> simp [apply_changes, hdoc, hne, hall]
  · intro no pgs hdoc hne hall
    simp [apply_changes, hdoc, hne, hall, display_page]

/-- C5 counterexample: on the 4-page document, `apply_changes [0, 0, 1, 2]` —
an in-range order that is *not* a permutation of `[0, 4)` — is accepted
(reports success), rebuilds the document with page 0 duplicated and page 3
dropped, and marks it modified; the claim demanded a failed no-op. -/
theorem C5_counterexample :
    (apply_changes exDoc4 [0, 0, 1, 2]).1 = true ∧
    (apply_changes exDoc4 [0, 0, 1, 2]).2.doc = some [10, 10, 20, 30] ∧
    (apply_changes exDoc4 [0, 0, 1, 2]).2.is_modified = true ∧
    ¬ List.Perm [0, 0, 1, 2] (List.range exDoc4.total_pages) ∧
    (∀ i ∈ [0, 0, 1, 2], i < exDoc4.total_pages) :=
  ⟨rfl, rfl, rfl, by decide, by decide⟩

theorem C5_witness :
    ¬ ((0 : Int) ≤ -1 ∧ (-1 : Int) < (exDoc4.total_pages : Int)) ∧
    goto_page exDoc4 (-1) = (false, exDoc4) :=
  ⟨by decide, (C5_invalid_inputs exDoc4).1 (-1) (by decide)⟩

/-- C9: transplanting pages into the assembly document appends them at the
end, refreshes `total_pages` from the engine's live count, marks the assembly
modified, and moves its cursor to the first newly inserted page — both for a
single page (`add_current_page_to_assembly`) and for a whole document
(`add_all_pages_to_assembly`, non-empty source). -/
theorem C9_transplant {α : Type} (asm : PDFViewWidget α) (target : List α)
    (hdoc : asm.doc = some target) (hlen : asm.total_pages = target.length)
    (page : α) (srcPages : List α) (hsrc : srcPages ≠ []) :
    ((add_current_page_to_assembly asm page).doc = some (target ++ [page]) ∧
     (add_current_page_to_assembly asm page).total_pages =
       (target ++ [page]).length ∧
     (add_current_page_to_assembly asm page).is_modified = true ∧
     (add_current_page_to_assembly asm page).current_page = target.length) ∧
    ((add_all_pages_to_assembly asm srcPages).doc = some (target ++ srcPages) ∧
     (add_all_pages_to_assembly asm srcPages).total_pages =
       (target ++ srcPages).length ∧
     (add_all_pages_to_assembly asm srcPages).is_modified = true ∧
     (add_all_pages_to_assembly asm srcPages).current_page = target.length) := by
  constructor
  · have hn : (target ++ [page]).length = target.length + 1 := by simp
    obtain ⟨g1, g2, g3, g4, g5⟩ := goto_page_fields
      { asm with doc := some (target ++ [page]),
                 total_pages := (target ++ [page]).length }
      (target ++ [page]) rfl target.length (by simp)
    rw [hn] at g1 g2 g3 g4 g5
    simp only [add_current_page_to_assembly, hdoc, hn, Nat.add_sub_cancel]
    by_cases hwe : asm.total_pages = 0 <;>
      simp [hwe, display_page, g1, g2, g3, g4, hn]
  · have hpos : 0 < srcPages.length := List.length_pos.mpr hsrc
    obtain ⟨g1, g2, g3, g4, g5⟩ := goto_page_fields
      { asm with doc := some (target ++ srcPages),
                 total_pages := (target ++ srcPages).length }
      (target ++ srcPages) rfl target.length (by simp [hpos])
    simp only [List.length_append] at g1 g2 g3 g4 g5
    simp only [add_all_pages_to_assembly, hdoc, hlen, if_pos hpos]
    by_cases hwe : target.length = 0
    · simp only [hwe, Nat.cast_zero, Nat.zero_add] at g1 g2 g3 g4 g5
      simp [hwe, display_page, g1, g2, g3, g4]
    · simp [hwe, display_page, g1, g2, g3, g4]

theorem C9_witness :
    exAsm0.doc = some [] ∧ exAsm0.total_pages = ([] : List Nat).length ∧
    ([7, 8] : List Nat) ≠ [] ∧
    ((add_current_page_to_assembly exAsm0 99).doc = some ([] ++ [99]) ∧
     (add_current_page_to_assembly exAsm0 99).total_pages =
       (([] : List Nat) ++ [99]).length ∧
     (add_current_page_to_assembly exAsm0 99).is_modified = true ∧
     (add_current_page_to_assembly exAsm0 99).current_page =
       ([] : List Nat).length) :=
  ⟨rfl, rfl, by decide,
   (C9_transplant exAsm0 [] rfl rfl 99 [7, 8] (by decide)).1⟩
theorem display_cache_spec {α : Type} (w : PDFViewWidget α) :
    (display_cache w = w.pixmap_cache) ∨
    (w.current_page < w.total_pages ∧
      ((display_cache w = w.pixmap_cache ++ [(w.current_page, w.zoom_factor)] ∧
        w.pixmap_cache.length + 1 ≤ 10) ∨
       (display_cache w = w.pixmap_cache.tail ++ [(w.current_page, w.zoom_factor)] ∧
        10 < w.pixmap_cache.length + 1))) := by
  unfold display_cache
  rcases hdoc : w.doc with _ | pgs
  · simp [hdoc]
  simp only [hdoc]
  split_ifs with h0 hcur hin hb
  · exact Or.inl rfl
  · exact Or.inl rfl
  · refine Or.inr ⟨hcur, Or.inr ⟨?_, by simpa using hb⟩⟩
    have hne : w.pixmap_cache ≠ [] := by
      intro hc
      rw [hc] at hb
      simp at hb
    rw [List.tail_append_of_ne_nil hne]
  · exact Or.inr ⟨hcur, Or.inl ⟨rfl, by simpa using hb⟩⟩
  · exact Or.inl rfl

theorem cacheOK_display {α : Type} (w : PDFViewWidget α) (h : cacheOK w) :
    cacheOK (display_page w) := by
  obtain ⟨h1, h2⟩ := h
  show (display_cache w).length ≤ 10 ∧ ∀ e ∈ display_cache w, e.1 < w.total_pages
  rcases display_cache_spec w with hs | ⟨hcur, ⟨hseq, hsle⟩ | ⟨hseq, hsle⟩⟩
  · exact hs ▸ ⟨h1, h2⟩
  · rw [hseq]
    refine ⟨by simp; omega, ?_⟩
    intro e he
    rcases List.mem_append.mp he with h | h
    · exact h2 e h
    · simp at h
      rw [h]
      exact hcur
  · rw [hseq]
    have hlt : w.pixmap_cache.tail.length = w.pixmap_cache.length - 1 :=
      List.length_tail _
    refine ⟨by simp [hlt]; omega, ?_⟩
    intro e he
    rcases List.mem_append.mp he with h | h
    · exact h2 e (List.mem_of_mem_tail h)
    · simp at h
      rw [h]
      exact hcur
theorem cacheOK_nil {α : Type} (w : PDFViewWidget α) (h : w.pixmap_cache = []) :
    cacheOK w :=
  ⟨by simp [h], by simp [h]⟩

theorem cacheOK_goto {α : Type} (w : PDFViewWidget α) (i : Int) (h : cacheOK w) :
    cacheOK (goto_page w i).2 := by
  unfold goto_page
  rcases hdoc : w.doc with _ | pgs
  · exact h
  simp only [hdoc]
  split_ifs
  · exact cacheOK_display _ h
  · exact h
  · exact h

theorem cacheOK_zoom {α : Type} (w : PDFViewWidget α) (f : ℚ) (h : cacheOK w) :
    cacheOK (apply_zoom w f).2 := by
  unfold apply_zoom
  rcases hdoc : w.doc with _ | pgs
  · exact h
  simp only [hdoc]
  split_ifs
  · exact cacheOK_display _ (cacheOK_nil _ rfl)
  · exact h
  · exact h

theorem cacheOK_save {α : Type} (w : PDFViewWidget α) (path : Option String)
    (ok : Bool) (h : cacheOK w) : cacheOK (save_as w path ok).2 := by
  unfold save_as
  rcases hdoc : w.doc with _ | pgs
  · exact h
  rcases path with _ | p <;> simp only [hdoc]
  · exact h
  · split_ifs
    · exact h
    · exact h

theorem cacheOK_delete {α : Type} (w : PDFViewWidget α) (confirm : Bool)
    (h : cacheOK w) : cacheOK (delete_page w confirm).2 := by
  unfold delete_page
  rcases hdoc : w.doc with _ | pgs
  · exact h
  simp only [hdoc]
  split_ifs <;>
    first
    | exact h
    | exact cacheOK_display _ (cacheOK_nil _ rfl)

theorem cacheOK_move {α : Type} [Inhabited α] (w : PDFViewWidget α)
    (i j : Int) (h : cacheOK w) : cacheOK (move_page_to w i j).2 := by
  unfold move_page_to
  rcases hdoc : w.doc with _ | pgs
  · exact h
  simp only [hdoc]
  split_ifs <;>
    first
    | exact h
    | exact cacheOK_display _ (cacheOK_nil _ rfl)

theorem cacheOK_apply_changes {α : Type} [Inhabited α] (w : PDFViewWidget α)
    (no : List Nat) (h : cacheOK w) : cacheOK (apply_changes w no).2 := by
  unfold apply_changes
  rcases hdoc : w.doc with _ | pgs <;> simp only [hdoc] <;>
    split_ifs <;>
    first
    | exact h
    | exact cacheOK_display _ (cacheOK_nil _ rfl)

theorem cacheOK_search {α : Type} [Inhabited α] (w : PDFViewWidget α)
    (q : String) (found : List (Nat × List α)) (h : cacheOK w) :
    cacheOK (search_text w q found).2 := by
  unfold search_text
  rcases hdoc : w.doc with _ | pgs
  · exact h
  simp only [hdoc]
  split_ifs <;> try exact h
  · split
    · exact cacheOK_goto _ _ (cacheOK_nil _ rfl)
    · exact cacheOK_nil _ rfl
  · exact cacheOK_display _ (cacheOK_nil _ rfl)

theorem cacheOK_find_next {α : Type} [Inhabited α] (w : PDFViewWidget α)
    (forward : Bool) (h : cacheOK w) : cacheOK (find_next w forward).2 := by
  unfold find_next
  dsimp only
  repeat' split
  all_goals
    first
    | exact h
    | exact cacheOK_goto _ _ h
    | exact cacheOK_display _ (cacheOK_nil _ rfl)

theorem cacheOK_load {α : Type} (w : PDFViewWidget α) (fp : String)
    (opened : Option (List α)) (h : cacheOK w)
    (hclosed : w.doc = none → w.pixmap_cache = []) :
    cacheOK (load_pdf w fp opened).2 := by
  unfold load_pdf close_document
  split_ifs with h1
  · exact h
  dsimp only
  repeat' split
  all_goals
    first
    | exact h
    | exact cacheOK_nil _ rfl
    | exact cacheOK_nil _ (hclosed (by assumption))
    | exact cacheOK_display _ (cacheOK_nil _ rfl)
theorem move_clears_cache {α : Type} [Inhabited α] (w : PDFViewWidget α)
    (pgs : List α) (a b : Nat) (hdoc : w.doc = some pgs)
    (ha : a < w.total_pages) (hb : b < w.total_pages) (hab : a ≠ b)
    (hcur : w.current_page < w.total_pages) :
    (move_page_to w (a : Int) (b : Int)).2.pixmap_cache =
      [((move_page_to w (a : Int) (b : Int)).2.current_page, w.zoom_factor)] := by
  have hg1 : (a : Int) < (w.total_pages : Int) := by exact_mod_cast ha
  have hg2 : (b : Int) < (w.total_pages : Int) := by exact_mod_cast hb
  have hne : ¬ ((a : Int) = (b : Int)) := by exact_mod_cast hab
  have hlen3 : (newOrderMove a b w.total_pages).length = w.total_pages :=
    newOrderMove_length a b w.total_pages ha hb
  simp only [move_page_to, hdoc, Int.natCast_nonneg, hg1, hg2, and_true,
    true_and, if_true, if_neg hne, Int.toNat_ofNat, display_page]
  rw [display_cache_empty _ _ ?hd ?hc0 ?h0 ?hc]
  case hd => exact rfl
  case hc0 => exact rfl
  case h0 => simp [List.length_map, hlen3]; omega
  case hc => simp [List.length_map, hlen3]; split_ifs <;> omega

theorem zoom_clears_cache {α : Type} (w : PDFViewWidget α) (pgs : List α)
    (f : ℚ) (hdoc : w.doc = some pgs) (h0 : w.total_pages ≠ 0)
    (hcur : w.current_page < w.total_pages) (hf : 0 < f)
    (hch : 1/100 < |w.zoom_factor - max (1/10) (min f 5)|) :
    (apply_zoom w f).2.pixmap_cache =
      [(w.current_page, max (1/10) (min f 5))] := by
  simp only [apply_zoom, hdoc, if_pos hf, if_pos hch, display_page]
  rw [display_cache_empty _ _ ?hd ?hc0 ?h0 ?hc]
  case hd => exact rfl
  case hc0 => exact rfl
  case h0 => exact h0
  case hc => exact hcur

theorem apply_changes_clears_cache {α : Type} [Inhabited α]
    (w : PDFViewWidget α) (pgs : List α) (no : List Nat)
    (hdoc : w.doc = some pgs) (hne : no ≠ List.range no.length)
    (hall : no.all (fun i => i < w.total_pages)) :
    (apply_changes w no).2.pixmap_cache =
      [((apply_changes w no).2.current_page, w.zoom_factor)] := by
  have hno : no ≠ [] := by
    intro h
    subst h
    exact hne rfl
  have hpos : 0 < no.length := List.length_pos.mpr hno
  simp only [apply_changes, hdoc, if_neg hne, if_pos hall, display_page]
  rw [display_cache_empty _ _ ?hd ?hc0 ?h0 ?hc]
  case hd => exact rfl
  case hc0 => exact rfl
  case h0 => simp [hno]
  case hc => simp; omega

theorem delete_clears_cache {α : Type} (w : PDFViewWidget α) (pgs : List α)
    (hdoc : w.doc = some pgs) (h1 : 1 < w.total_pages) :
    (delete_page w true).2.pixmap_cache =
      [((delete_page w true).2.current_page, w.zoom_factor)] := by
  have h2 : ¬ w.total_pages ≤ 1 := by omega
  simp only [delete_page, hdoc, if_neg h2, if_pos rfl, if_true]
  by_cases hclamp : w.total_pages - 1 ≤ w.current_page ∧ 0 < w.total_pages - 1
  · rw [if_pos hclamp, display_page,
      display_cache_empty _ _ ?hd ?hc0 ?h0 ?hc]
    case hd => exact rfl
    case hc0 => exact rfl
    case h0 => simp; omega
    case hc => simp; omega
  · rw [if_neg hclamp]
    have h3 : ¬ (w.total_pages - 1 = 0) := by omega
    rw [if_neg h3, display_page,
      display_cache_empty _ _ ?hd ?hc0 ?h0 ?hc]
    case hd => exact rfl
    case hc0 => exact rfl
    case h0 => simp; omega
    case hc => simp; omega

theorem add_empty_clears_cache {α : Type} (asm : PDFViewWidget α)
    (target : List α) (pg : α) (hdoc : asm.doc = some target)
    (h0 : asm.total_pages = 0) (hlen : asm.total_pages = target.length) :
    (add_current_page_to_assembly asm pg).pixmap_cache =
      [((add_current_page_to_assembly asm pg).current_page,
        asm.zoom_factor)] := by
  obtain rfl : target = [] := List.eq_nil_of_length_eq_zero (by omega)
  obtain ⟨g1, g2, g3, g4, g5⟩ := goto_page_fields
    { asm with doc := some [pg], total_pages := 1 } [pg] rfl 0 (by norm_num)
  simp only [Nat.cast_zero] at g1 g2 g3 g4 g5
  simp only [add_current_page_to_assembly, hdoc, h0, if_pos rfl]
  simp only [List.nil_append, List.length_cons, List.length_nil,
    Nat.add_sub_cancel] at g1 g2 g3 g4 g5 ⊢
  rw [display_page]
  rw [display_cache_empty _ _ ?hd ?hc0 ?h0 ?hc]
  case hd => exact g1
  case hc0 => exact rfl
  case h0 => simp [g2]
  case hc => simp [g2, g3]
  simp [g3, g5]
theorem cacheOK_add_current {α : Type} (asm : PDFViewWidget α)
    (target : List α) (pg : α) (hdoc : asm.doc = some target)
    (hlen : asm.total_pages = target.length) (h : cacheOK asm) :
    cacheOK (add_current_page_to_assembly asm pg) := by
  have h1 : cacheOK { asm with
      doc := some (target ++ [pg]),
      total_pages := (target ++ [pg]).length } := by
    refine ⟨h.1, ?_⟩
    intro e he
    have h2 := h.2 e he
    simp only [List.length_append, List.length_cons, List.length_nil]
    omega
  unfold add_current_page_to_assembly
  simp only [hdoc]
  split_ifs
  · exact cacheOK_display _ (cacheOK_nil _ rfl)
  · exact cacheOK_goto _ _ h1

theorem cacheOK_add_all {α : Type} (asm : PDFViewWidget α)
    (target srcPages : List α) (hdoc : asm.doc = some target)
    (hlen : asm.total_pages = target.length) (h : cacheOK asm) :
    cacheOK (add_all_pages_to_assembly asm srcPages) := by
  have h1 : cacheOK { asm with
      doc := some (target ++ srcPages),
      total_pages := (target ++ srcPages).length } := by
    refine ⟨h.1, ?_⟩
    intro e he
    have h2 := h.2 e he
    simp only [List.length_append]
    omega
  unfold add_all_pages_to_assembly
  simp only [hdoc]
  split_ifs
  · exact cacheOK_display _ (cacheOK_nil _ rfl)
  · exact cacheOK_goto _ _ h1

/-- C4 (amended): the render cache (i) never exceeds 10 entries and never
holds a key for a page index at or beyond the current page count, and every
operation preserves this at its boundary; (ii) is FIFO, not LRU: a cache hit
leaves the cache untouched (no promotion), a miss appends the new key at the
newest end, and when the bound is exceeded the oldest-inserted key is the one
evicted; (iii) is discarded wholesale by delete, move, reorder and effective
zoom change — the re-render that ends those operations leaves exactly the
fresh current page entry, not an empty cache — while a transplant insert
discards it only when the assembly was empty beforehand (the original
claim's "empty after any insert" fails on a non-empty assembly). -/
theorem C4_cache_amended {α : Type} [Inhabited α] :
    (∀ w : PDFViewWidget α, (w.current_page, w.zoom_factor) ∈ w.pixmap_cache →
      display_cache w = w.pixmap_cache) ∧
    (∀ w : PDFViewWidget α, ∀ pgs : List α, w.doc = some pgs →
      w.total_pages ≠ 0 → w.current_page < w.total_pages →
      (w.current_page, w.zoom_factor) ∉ w.pixmap_cache →
      w.pixmap_cache.length < 10 →
      display_cache w = w.pixmap_cache ++ [(w.current_page, w.zoom_factor)]) ∧
    (∀ w : PDFViewWidget α, ∀ pgs : List α, w.doc = some pgs →
      w.total_pages ≠ 0 → w.current_page < w.total_pages →
      (w.current_page, w.zoom_factor) ∉ w.pixmap_cache →
      w.pixmap_cache.length = 10 →
      display_cache w =
        w.pixmap_cache.tail ++ [(w.current_page, w.zoom_factor)]) ∧
    (∀ w : PDFViewWidget α, cacheOK w → cacheOK (display_page w)) ∧
    (∀ (w : PDFViewWidget α) (i : Int), cacheOK w → cacheOK (goto_page w i).2) ∧
    (∀ (w : PDFViewWidget α) (f : ℚ), cacheOK w → cacheOK (apply_zoom w f).2) ∧
    (∀ (w : PDFViewWidget α) (q : String) (found : List (Nat × List α)),
      cacheOK w → cacheOK (search_text w q found).2) ∧
    (∀ (w : PDFViewWidget α) (fwd : Bool), cacheOK w →
      cacheOK (find_next w fwd).2) ∧
    (∀ (w : PDFViewWidget α) (path : Option String) (ok : Bool), cacheOK w →
      cacheOK (save_as w path ok).2) ∧
    (∀ (w : PDFViewWidget α) (confirm : Bool), cacheOK w →
      cacheOK (delete_page w confirm).2) ∧
    (∀ (w : PDFViewWidget α) (i j : Int), cacheOK w →
      cacheOK (move_page_to w i j).2) ∧
    (∀ (w : PDFViewWidget α) (no : List Nat), cacheOK w →
      cacheOK (apply_changes w no).2) ∧
    (∀ (w : PDFViewWidget α) (fp : String) (opened : Option (List α)),
      cacheOK w → (w.doc = none → w.pixmap_cache = []) →
      cacheOK (load_pdf w fp opened).2) ∧
    (∀ (asm : PDFViewWidget α) (target : List α) (pg : α),
      asm.doc = some target → asm.total_pages = target.length → cacheOK asm →
      cacheOK (add_current_page_to_assembly asm pg)) ∧
    (∀ (asm : PDFViewWidget α) (target srcPages : List α),
      asm.doc = some target → asm.total_pages = target.length → cacheOK asm →
      cacheOK (add_all_pages_to_assembly asm srcPages)) ∧
    (∀ (w : PDFViewWidget α) (pgs : List α) (a b : Nat), w.doc = some pgs →
      a < w.total_pages → b < w.total_pages → a ≠ b →
      w.current_page < w.total_pages →
      (move_page_to w (a : Int) (b : Int)).2.pixmap_cache =
        [((move_page_to w (a : Int) (b : Int)).2.current_page,
          w.zoom_factor)]) ∧
    (∀ (w : PDFViewWidget α) (pgs : List α) (f : ℚ), w.doc = some pgs →
      w.total_pages ≠ 0 → w.current_page < w.total_pages → 0 < f →
      1/100 < |w.zoom_factor - max (1/10) (min f 5)| →
      (apply_zoom w f).2.pixmap_cache =
        [(w.current_page, max (1/10) (min f 5))]) ∧
    (∀ (w : PDFViewWidget α) (pgs : List α) (no : List Nat), w.doc = some pgs →
      no ≠ List.range no.length → no.all (fun i => i < w.total_pages) →
      (apply_changes w no).2.pixmap_cache =
        [((apply_changes w no).2.current_page, w.zoom_factor)]) ∧
    (∀ (w : PDFViewWidget α) (pgs : List α), w.doc = some pgs →
      1 < w.total_pages →
      (delete_page w true).2.pixmap_cache =
        [((delete_page w true).2.current_page, w.zoom_factor)]) ∧
    (∀ (asm : PDFViewWidget α) (target : List α) (pg : α),
      asm.doc = some target → asm.total_pages = 0 →
      asm.total_pages = target.length →
      (add_current_page_to_assembly asm pg).pixmap_cache =
        [((add_current_page_to_assembly asm pg).current_page,
          asm.zoom_factor)]) := by
  refine ⟨?_, ?_, ?_, fun w h => cacheOK_display w h,
    fun w i h => cacheOK_goto w i h, fun w f h => cacheOK_zoom w f h,
    fun w q found h => cacheOK_search w q found h,
    fun w fwd h => cacheOK_find_next w fwd h,
    fun w path ok h => cacheOK_save w path ok h,
    fun w c h => cacheOK_delete w c h, fun w i j h => cacheOK_move w i j h,
    fun w no h => cacheOK_apply_changes w no h,
    fun w fp opened h hc => cacheOK_load w fp opened h hc,
    fun asm t pg h1 h2 h3 => cacheOK_add_current asm t pg h1 h2 h3,
    fun asm t src h1 h2 h3 => cacheOK_add_all asm t src h1 h2 h3,
    fun w pgs a b h1 h2 h3 h4 h5 => move_clears_cache w pgs a b h1 h2 h3 h4 h5,
    fun w pgs f h1 h2 h3 h4 h5 => zoom_clears_cache w pgs f h1 h2 h3 h4 h5,
    fun w pgs no h1 h2 h3 => apply_changes_clears_cache w pgs no h1 h2 h3,
    fun w pgs h1 h2 => delete_clears_cache w pgs h1 h2,
    fun asm t pg h1 h2 h3 => add_empty_clears_cache asm t pg h1 h2 h3⟩
  · intro w hin
    unfold display_cache
    rcases hdoc : w.doc with _ | pgs <;> simp [hdoc, hin]
  · intro w pgs hdoc h0 hcur hin hlt
    have hb : ¬ 10 <
        (w.pixmap_cache ++ [(w.current_page, w.zoom_factor)]).length := by
      simp
      omega
    simp [display_cache, hdoc, h0, hcur, hin, hb]
    exact fun hcon => absurd hcon (by omega)
  · intro w pgs hdoc h0 hcur hin hl10
    have hb : 10 <
        (w.pixmap_cache ++ [(w.current_page, w.zoom_factor)]).length := by
      simp
      omega
    have hne : w.pixmap_cache ≠ [] := by
      intro hc
      rw [hc] at hl10
      simp at hl10
    simp [display_cache, hdoc, h0, hcur, hin, hb,
      List.tail_append_of_ne_nil hne]
    exact fun hcon => absurd hcon (by omega)

/-- C4 counterexample: transplanting a page into a *non-empty* assembly does
not clear the render cache — on the 1-page assembly whose cache holds the
entry for page 0, inserting one more page leaves that old entry in place
(the cache ends up `[(0, 1), (1, 1)]`, not `[]`), refuting "immediately
after any page-set mutation (insert/delete/reorder) the cache is empty". -/
theorem C4_counterexample :
    exAsm1.pixmap_cache = [(0, 1)] ∧ exAsm1.total_pages = 1 ∧
    (add_current_page_to_assembly exAsm1 99).pixmap_cache = [(0, 1), (1, 1)] ∧
    (0, 1) ∈ (add_current_page_to_assembly exAsm1 99).pixmap_cache ∧
    (add_current_page_to_assembly exAsm1 99).pixmap_cache ≠ [] :=
  ⟨rfl, rfl, rfl,
   by rw [show (add_current_page_to_assembly exAsm1 99).pixmap_cache =
     [(0, 1), (1, 1)] from rfl]; simp,
   by rw [show (add_current_page_to_assembly exAsm1 99).pixmap_cache =
     [(0, 1), (1, 1)] from rfl]; simp⟩

theorem C4_witness :
    ((exAsm1.current_page, exAsm1.zoom_factor) ∈ exAsm1.pixmap_cache) ∧
    display_cache exAsm1 = exAsm1.pixmap_cache :=
  ⟨by simp [exAsm1], (C4_cache_amended (α := Nat)).1 exAsm1 (by simp [exAsm1])⟩
theorem cnt_cons_succ (n : Nat) (rest : List Nat) (i : Nat) :
    cnt (n :: rest) (i + 1) = cnt rest i := rfl

theorem decode_zero (c : List Nat) (hc : ∀ n ∈ c, 0 < n) (hne : c ≠ []) :
    decode c 0 = (0, 0) := by
  rcases c with _ | ⟨n, rest⟩
  · exact absurd rfl hne
  · have : 0 < n := hc n (by simp)
    simp [decode, this]

theorem decode_valid (c : List Nat) (k : Nat) (hk : k < c.sum) :
    PosValid c (decode c k) := by
  induction c generalizing k with
  | nil => simp at hk
  | cons n rest ih =>
    rw [List.sum_cons] at hk
    by_cases h : k < n
    · exact ⟨by simp [decode, h], by simp [decode, h, cnt, h]⟩
    · have hk2 : k - n < rest.sum := by omega
      obtain ⟨v1, v2⟩ := ih (k - n) hk2
      refine ⟨?_, ?_⟩
      · simp only [decode, if_neg h, List.length_cons]
        omega
      · simpa [decode, if_neg h, cnt_cons_succ] using v2

theorem decode_fst_zero (c : List Nat) (k j : Nat)
    (h : decode c k = (0, j)) (hne : c ≠ []) : k = j ∧ k < cnt c 0 := by
  rcases c with _ | ⟨n, rest⟩
  · exact absurd rfl hne
  · by_cases hk : k < n
    · simp [decode, hk] at h
      refine ⟨by omega, ?_⟩
      simp [cnt]
      omega
    · simp [decode, hk] at h

theorem succ_decode (c : List Nat) (k : Nat) (hc : ∀ n ∈ c, 0 < n)
    (hk : k + 1 < c.sum) : succPos c (decode c k) = decode c (k + 1) := by
  induction c generalizing k with
  | nil => simp at hk
  | cons n rest ih =>
    rw [List.sum_cons] at hk
    have hc2 : ∀ m ∈ rest, 0 < m := fun m hm2 => hc m (by simp [hm2])
    by_cases h1 : k + 1 < n
    · have h0 : k < n := by omega
      simp [decode, h0, h1, succPos, cnt, Nat.lt_irrefl]
    · by_cases h0 : k < n
      · -- k + 1 = n : step to the first match of the next page
        have hn : n = k + 1 := by omega
        have hrest : rest ≠ [] := by
          intro hr
          rw [hr] at hk
          simp at hk
          omega
        have hz := decode_zero rest hc2 hrest
        have h2 : k + 1 - n = 0 := by omega
        rw [show decode (n :: rest) k = (0, k) from by simp [decode, h0]]
        rw [show decode (n :: rest) (k + 1) = (1, 0) from by
          simp [decode, h1, h2, hz]]
        have hcnt : ¬ (k + 1 < cnt (n :: rest) 0) := by
          simp [cnt]
          omega
        have hlen : 0 + 1 < (n :: rest).length := by
          simp [List.length_pos.mpr hrest]
        simp [succPos, hcnt, hlen, hrest]
      · -- k ≥ n : the cursor sits in the tail pages
        have hge : n ≤ k := Nat.not_lt.mp h0
        have hm : (k - n) + 1 < rest.sum := by omega
        have ihr := ih (k - n) hc2 hm
        have hv := decode_valid rest (k - n) (by omega)
        have hrestne : rest ≠ [] := by
          intro hr
          rw [hr] at hm
          simp at hm
        have hstep2 : ¬ (k + 1 < n) := by omega
        have hsub : k + 1 - n = (k - n) + 1 := by omega
        rw [show decode (n :: rest) k =
          ((decode rest (k - n)).1 + 1, (decode rest (k - n)).2) from by
            simp [decode, h0]]
        rw [show decode (n :: rest) (k + 1) =
          ((decode rest ((k - n) + 1)).1 + 1, (decode rest ((k - n) + 1)).2) from by
            simp [decode, hstep2, hsub]]
        by_cases hj : (decode rest (k - n)).2 + 1 < cnt rest (decode rest (k - n)).1
        · rw [show succPos rest (decode rest (k - n)) =
            ((decode rest (k - n)).1, (decode rest (k - n)).2 + 1) from by
              simp [succPos, hj]] at ihr
          rw [show succPos (n :: rest)
              ((decode rest (k - n)).1 + 1, (decode rest (k - n)).2) =
            ((decode rest (k - n)).1 + 1, (decode rest (k - n)).2 + 1) from by
              simp [succPos, cnt_cons_succ, hj]]
          rw [← ihr]
        · by_cases hi : (decode rest (k - n)).1 + 1 < rest.length
          · rw [show succPos rest (decode rest (k - n)) =
              ((decode rest (k - n)).1 + 1, 0) from by
                simp [succPos, hj, hi]] at ihr
            rw [show succPos (n :: rest)
                ((decode rest (k - n)).1 + 1, (decode rest (k - n)).2) =
              ((decode rest (k - n)).1 + 1 + 1, 0) from by
                simp [succPos, cnt_cons_succ, hj, List.length_cons, hi]]
            rw [← ihr]
          · exfalso
            have hwrap : succPos rest (decode rest (k - n)) = (0, 0) := by
              simp [succPos, hj, hi]
            rw [hwrap] at ihr
            obtain ⟨he, _⟩ := decode_fst_zero rest ((k - n) + 1) 0 ihr.symm hrestne
            omega
theorem decode_last (c : List Nat) (hc : ∀ n ∈ c, 0 < n) (hs : 0 < c.sum) :
    decode c (c.sum - 1) =
      (c.length - 1, cnt c (c.length - 1) - 1) := by
  induction c with
  | nil => simp at hs
  | cons n rest ih =>
    have hc2 : ∀ m ∈ rest, 0 < m := fun m hm2 => hc m (by simp [hm2])
    have hn : 0 < n := hc n (by simp)
    rcases hr : rest with _ | ⟨n2, rest2⟩
    · simp [decode, List.sum_cons, cnt, hn, Nat.sub_lt hn]
    · rw [← hr]
      have hrs : 0 < rest.sum := by
        rw [hr]
        have : 0 < n2 := hc2 n2 (by simp [hr])
        simp [List.sum_cons]
        omega
      have hge : ¬ (n + rest.sum - 1 < n) := by omega
      have hsub : n + rest.sum - 1 - n = rest.sum - 1 := by omega
      have hlen : rest.length ≠ 0 := by
        rw [hr]
        simp
      rw [show decode (n :: rest) ((n :: rest).sum - 1) =
        ((decode rest (rest.sum - 1)).1 + 1, (decode rest (rest.sum - 1)).2) from by
          simp [decode, List.sum_cons, hge, hsub]]
      rw [ih hc2 hrs]
      have h2 : (n :: rest).length - 1 = (rest.length - 1) + 1 := by
        simp [List.length_cons]
        omega
      rw [h2, cnt_cons_succ]

theorem succ_decode_wrap (c : List Nat) (hc : ∀ n ∈ c, 0 < n)
    (hs : 0 < c.sum) :
    succPos c (decode c (c.sum - 1)) = decode c 0 := by
  have hne : c ≠ [] := by
    intro h
    rw [h] at hs
    simp at hs
  rw [decode_last c hc hs, decode_zero c hc hne]
  have hmem : cnt c (c.length - 1) ∈ c := by
    have : c.length - 1 < c.length := by
      rcases c with _ | ⟨x, xs⟩
      · exact absurd rfl hne
      · simp
    unfold cnt
    rw [List.getD_eq_getElem _ _ this]
    exact List.getElem_mem this
  have hpos : 0 < cnt c (c.length - 1) := hc _ hmem
  have h1 : ¬ ((cnt c (c.length - 1) - 1) + 1 < cnt c (c.length - 1)) := by
    omega
  have h2 : ¬ ((c.length - 1) + 1 < c.length) := by
    have : 0 < c.length := List.length_pos.mpr hne
    omega
  simp [succPos, h1, h2]

theorem succ_iterate (c : List Nat) (hc : ∀ n ∈ c, 0 < n) (t : Nat)
    (ht : t < c.sum) :
    (succPos c)^[t] (decode c 0) = decode c t := by
  induction t with
  | zero => rfl
  | succ m ih =>
    rw [Function.iterate_succ_apply', ih (by omega), succ_decode c m hc (by omega)]

theorem succ_iterate_cycle (c : List Nat) (hc : ∀ n ∈ c, 0 < n)
    (hs : 0 < c.sum) :
    (succPos c)^[c.sum] (decode c 0) = decode c 0 := by
  have h1 : c.sum = (c.sum - 1) + 1 := by omega
  rw [h1, Function.iterate_succ_apply',
    succ_iterate c hc (c.sum - 1) (by omega)]
  exact succ_decode_wrap c hc hs
theorem succPos_valid (c : List Nat) (x : Nat × Nat) (hc : ∀ n ∈ c, 0 < n)
    (hv : PosValid c x) : PosValid c (succPos c x) := by
  obtain ⟨h1, h2⟩ := hv
  have hne : c ≠ [] := by
    intro h
    rw [h] at h1
    simp at h1
  have hhead : 0 < cnt c 0 := by
    rcases c with _ | ⟨n, rest⟩
    · exact absurd rfl hne
    · exact hc n (by simp)
  unfold succPos
  split_ifs with ha hb
  · exact ⟨h1, ha⟩
  · refine ⟨hb, ?_⟩
    show 0 < cnt c (x.1 + 1)
    have : cnt c (x.1 + 1) ∈ c := by
      unfold cnt
      rw [List.getD_eq_getElem _ _ hb]
      exact List.getElem_mem hb
    exact hc _ this
  · exact ⟨List.length_pos.mpr hne, hhead⟩

theorem predPos_valid (c : List Nat) (x : Nat × Nat) (hc : ∀ n ∈ c, 0 < n)
    (hv : PosValid c x) : PosValid c (predPos c x) := by
  obtain ⟨h1, h2⟩ := hv
  have hne : c ≠ [] := by
    intro h
    rw [h] at h1
    simp at h1
  have hlen : 0 < c.length := List.length_pos.mpr hne
  unfold predPos
  split_ifs with ha hb
  · exact ⟨h1, by show x.2 - 1 < cnt c x.1; omega⟩
  · have hi : x.1 - 1 < c.length := by omega
    have hmem : cnt c (x.1 - 1) ∈ c := by
      unfold cnt
      rw [List.getD_eq_getElem _ _ hi]
      exact List.getElem_mem hi
    refine ⟨hi, ?_⟩
    show cnt c (x.1 - 1) - 1 < cnt c (x.1 - 1)
    have := hc _ hmem
    omega
  · have hi : c.length - 1 < c.length := by omega
    have hmem : cnt c (c.length - 1) ∈ c := by
      unfold cnt
      rw [List.getD_eq_getElem _ _ hi]
      exact List.getElem_mem hi
    refine ⟨hi, ?_⟩
    show cnt c (c.length - 1) - 1 < cnt c (c.length - 1)
    have := hc _ hmem
    omega

theorem predPos_succPos (c : List Nat) (x : Nat × Nat)
    (hv : PosValid c x) : predPos c (succPos c x) = x := by
  obtain ⟨h1, h2⟩ := hv
  unfold succPos
  split_ifs with ha hb
  · show predPos c (x.1, x.2 + 1) = x
    simp [predPos]
  · have hx2 : x.2 = cnt c x.1 - 1 := by omega
    show predPos c (x.1 + 1, 0) = x
    rw [show predPos c (x.1 + 1, 0) =
      (x.1 + 1 - 1, cnt c (x.1 + 1 - 1) - 1) from by simp [predPos]]
    simp only [Nat.add_sub_cancel]
    rw [← hx2]
  · have hx1 : x.1 = c.length - 1 := by omega
    have hx2 : x.2 = cnt c x.1 - 1 := by omega
    show predPos c (0, 0) = x
    rw [show predPos c (0, 0) =
      (c.length - 1, cnt c (c.length - 1) - 1) from by simp [predPos]]
    rw [← hx1, ← hx2]

theorem pred_iterate_succ_iterate (c : List Nat) (x : Nat × Nat)
    (hc : ∀ n ∈ c, 0 < n) (hv : PosValid c x) (t : Nat) :
    (predPos c)^[t] ((succPos c)^[t] x) = x := by
  induction t generalizing x with
  | zero => rfl
  | succ m ih =>
    rw [Function.iterate_succ_apply (predPos c) m,
      Function.iterate_succ_apply' (succPos c) m]
    have hvm : PosValid c ((succPos c)^[m] x) := by
      clear ih
      induction m with
      | zero => exact hv
      | succ m2 ih2 =>
        rw [Function.iterate_succ_apply']
        exact succPos_valid c _ hc ih2
    rw [predPos_succPos c _ hvm]
    exact ih x hv
theorem range_map_decode (c : List Nat) :
    (List.range c.sum).map (decode c) = posEnum c := by
  induction c with
  | nil => simp [posEnum]
  | cons n rest ih =>
    rw [List.sum_cons, List.range_add, List.map_append, List.map_map]
    unfold posEnum
    congr 1
    · apply List.map_congr_left
      intro k hk
      rw [List.mem_range] at hk
      simp [decode, hk]
    · rw [← ih, List.map_map]
      apply List.map_congr_left
      intro k hk
      have h1 : ¬ (n + k < n) := by omega
      simp [decode, Function.comp, h1]

theorem posEnum_map_getD (ps : List Nat) (f : Nat → Nat) :
    (posEnum (ps.map f)).map
        (fun q => ((ps.getD q.1 0 : Int), (q.2 : Int))) =
      ps.flatMap (fun p =>
        (List.range (f p)).map (fun (j : Nat) => ((p : Int), (j : Int)))) := by
  induction ps with
  | nil => simp [posEnum]
  | cons p rest ih =>
    rw [List.map_cons]
    unfold posEnum
    rw [List.map_append, List.map_map, List.map_map, List.flatMap_cons]
    congr 1
theorem getD_map_lt {β γ : Type} (f : β → γ) (l : List β) (i : Nat)
    (h : i < l.length) (d : β) (d2 : γ) :
    (l.map f).getD i d2 = f (l.getD i d) := by
  rw [List.getD_eq_getElem _ _ (by simpa using h), List.getElem_map,
    List.getD_eq_getElem _ _ h]

theorem find?_eq_of_nodup {α : Type} (rs : List (Nat × List α))
    (hnd : (rs.map Prod.fst).Nodup) (p : Nat) (l : List α)
    (hmem : (p, l) ∈ rs) :
    ((rs.find? (fun e => e.1 == p)).map Prod.snd).getD [] = l := by
  induction rs with
  | nil => simp at hmem
  | cons e rest ih =>
    rw [List.mem_cons] at hmem
    rcases hmem with hm | hm
    · rw [← hm]
      simp [List.find?]
    · by_cases hp : e.1 = p
      · exfalso
        rw [List.map_cons, List.nodup_cons] at hnd
        apply hnd.1
        rw [hp]
        exact List.mem_map.mpr ⟨(p, l), hm, rfl⟩
      · rw [List.find?]
        rw [show (e.1 == p) = false from by simp [hp]]
        exact ih (by rw [List.map_cons, List.nodup_cons] at hnd; exact hnd.2) hm

theorem lookup_eq_of_mem {α : Type} (s : SearchResult α)
    (hnd : (s.results.map Prod.fst).Nodup) (e : Nat × List α)
    (he : e ∈ s.results) : s.lookup e.1 = e.2 :=
  find?_eq_of_nodup s.results hnd e.1 e.2 (by simpa using he)

theorem pages_perm {α : Type} (s : SearchResult α) :
    s.pages.Perm (s.results.map Prod.fst) :=
  List.perm_insertionSort _ _

theorem pages_nodup {α : Type} (s : SearchResult α) (hwf : s.WF) :
    s.pages.Nodup :=
  (List.Perm.nodup_iff (pages_perm s)).mpr hwf.1

theorem countsOf_sum {α : Type} (s : SearchResult α) (hwf : s.WF) :
    (countsOf s).sum = s.total_matches := by
  obtain ⟨hnd, hne, htot⟩ := hwf
  rw [htot]
  have h1 := (List.Perm.map (fun p => (s.lookup p).length) (pages_perm s)).sum_eq
  unfold SearchResult.countsOf
  rw [h1, List.map_map]
  congr 1
  apply List.map_congr_left
  intro e he
  show (s.lookup e.1).length = e.2.length
  rw [lookup_eq_of_mem s hnd e he]

theorem countsOf_pos {α : Type} (s : SearchResult α) (hwf : s.WF) :
    ∀ n ∈ countsOf s, 0 < n := by
  intro n hn
  unfold SearchResult.countsOf at hn
  rw [List.mem_map] at hn
  obtain ⟨p, hp, rfl⟩ := hn
  have hp2 : p ∈ s.results.map Prod.fst := (pages_perm s).mem_iff.mp hp
  rw [List.mem_map] at hp2
  obtain ⟨e, he, hfst⟩ := hp2
  rw [← hfst, lookup_eq_of_mem s hwf.1 e he]
  exact List.length_pos.mpr (hwf.2.1 e he)

theorem pages_ne_nil {α : Type} (s : SearchResult α) (hwf : s.WF)
    (hN : 0 < s.total_matches) : s.pages ≠ [] := by
  intro h
  have h2 := countsOf_sum s hwf
  unfold SearchResult.countsOf at h2
  rw [h] at h2
  simp at h2
  omega

theorem countsOf_length {α : Type} (s : SearchResult α) :
    (countsOf s).length = s.pages.length := by
  unfold SearchResult.countsOf
  simp
theorem navNext_init {α : Type} [Inhabited α] (fwd : Bool) (s : SearchResult α)
    (hwf : s.WF) (hN : 0 < s.total_matches)
    (hreset : s.current_page < 0 ∨ s.current_match < 0) :
    navNext fwd s = setCur s (0, 0) := by
  have hpne := pages_ne_nil s hwf hN
  unfold SearchResult.navNext SearchResult.navigate_to_match
  rw [if_neg (by simp [SearchResult.has_results, hN])]
  rcases hpg : s.pages with _ | ⟨p0, rest⟩
  · exact absurd hpg hpne
  simp only [hpg]
  rw [if_pos hreset]
  unfold SearchResult.setCur
  rw [hpg]
  rfl
theorem pages_setCur {α : Type} (s : SearchResult α) (x : Nat × Nat) :
    (setCur s x).pages = s.pages := rfl

theorem lookup_setCur {α : Type} (s : SearchResult α) (x : Nat × Nat)
    (p : Nat) : (setCur s x).lookup p = s.lookup p := rfl

theorem has_results_setCur {α : Type} (s : SearchResult α) (x : Nat × Nat) :
    (setCur s x).has_results = s.has_results := rfl

theorem current_page_setCur {α : Type} (s : SearchResult α) (x : Nat × Nat) :
    (setCur s x).current_page = ((s.pages.getD x.1 0 : Nat) : Int) := rfl

theorem current_match_setCur {α : Type} (s : SearchResult α) (x : Nat × Nat) :
    (setCur s x).current_match = (x.2 : Int) := rfl
theorem total_matches_setCur {α : Type} (s : SearchResult α) (x : Nat × Nat) :
    (setCur s x).total_matches = s.total_matches := rfl

theorem navNext_step_true {α : Type} [Inhabited α] (s : SearchResult α)
    (hwf : s.WF) (hN : 0 < s.total_matches) (x : Nat × Nat)
    (hv : PosValid (countsOf s) x) :
    navNext true (setCur s x) = setCur s (succPos (countsOf s) x) := by
  obtain ⟨hx1, hx2⟩ := hv
  rw [countsOf_length] at hx1
  have hnd := pages_nodup s hwf
  have hpne := pages_ne_nil s hwf hN
  have hcnt : ∀ i, i < s.pages.length →
      (s.lookup (s.pages.getD i 0)).length = cnt (countsOf s) i := by
    intro i hi
    unfold cnt SearchResult.countsOf
    rw [getD_map_lt (fun p => (s.lookup p).length) s.pages i hi 0]
  have hidx : s.pages.indexOf (s.pages.getD x.1 0) = x.1 := by
    rw [List.getD_eq_getElem _ _ hx1]
    exact List.indexOf_getElem hnd x.1 hx1
  have hclen : (countsOf s).length = s.pages.length := countsOf_length s
  rcases hpg : s.pages with _ | ⟨p0, rest⟩
  · exact absurd hpg hpne
  rw [hpg] at hx1 hidx hcnt hclen
  unfold SearchResult.navNext SearchResult.navigate_to_match
  rw [if_neg (by
    simp [has_results_setCur, SearchResult.has_results, total_matches_setCur]
    omega)]
  simp only [pages_setCur, hpg]
  rw [if_neg (by rw [current_page_setCur, current_match_setCur]; omega)]
  simp only [lookup_setCur, current_page_setCur, current_match_setCur,
    Int.toNat_ofNat, eq_self_iff_true, if_true, hpg]
  rw [hcnt x.1 hx1, hidx]
  by_cases hj : x.2 + 1 < cnt (countsOf s) x.1
  · rw [if_pos (by exact_mod_cast hj)]
    rw [show succPos (countsOf s) x = (x.1, x.2 + 1) from by
      simp [succPos, hj]]
    simp [SearchResult.setCur, hpg]
  · rw [if_neg (by exact_mod_cast hj)]
    by_cases hi : x.1 + 1 < (p0 :: rest).length
    · rw [if_pos hi]
      rw [show succPos (countsOf s) x = (x.1 + 1, 0) from by
        simp only [succPos, if_neg hj]
        rw [if_pos (by omega)]]
      simp [SearchResult.setCur, hpg]
    · rw [if_neg hi]
      rw [show succPos (countsOf s) x = (0, 0) from by
        simp only [succPos, if_neg hj]
        rw [if_neg (by omega)]]
      simp [SearchResult.setCur, hpg]
theorem cnt_mem (c : List Nat) (i : Nat) (h : i < c.length) : cnt c i ∈ c := by
  unfold cnt
  rw [List.getD_eq_getElem _ _ h]
  exact List.getElem_mem h

theorem navNext_step_false {α : Type} [Inhabited α] (s : SearchResult α)
    (hwf : s.WF) (hN : 0 < s.total_matches) (x : Nat × Nat)
    (hv : PosValid (countsOf s) x) :
    navNext false (setCur s x) = setCur s (predPos (countsOf s) x) := by
  obtain ⟨hx1, hx2⟩ := hv
  rw [countsOf_length] at hx1
  have hnd := pages_nodup s hwf
  have hpne := pages_ne_nil s hwf hN
  have hcnt : ∀ i, i < s.pages.length →
      (s.lookup (s.pages.getD i 0)).length = cnt (countsOf s) i := by
    intro i hi
    unfold cnt SearchResult.countsOf
    rw [getD_map_lt (fun p => (s.lookup p).length) s.pages i hi 0]
  have hidx : s.pages.indexOf (s.pages.getD x.1 0) = x.1 := by
    rw [List.getD_eq_getElem _ _ hx1]
    exact List.indexOf_getElem hnd x.1 hx1
  have hclen : (countsOf s).length = s.pages.length := countsOf_length s
  have hcpos : ∀ i, i < s.pages.length → 0 < cnt (countsOf s) i := by
    intro i hi
    exact countsOf_pos s hwf _ (cnt_mem _ i (by omega))
  rcases hpg : s.pages with _ | ⟨p0, rest⟩
  · exact absurd hpg hpne
  rw [hpg] at hx1 hidx hcnt hclen hcpos
  unfold SearchResult.navNext SearchResult.navigate_to_match
  rw [if_neg (by
    simp [has_results_setCur, SearchResult.has_results, total_matches_setCur]
    omega)]
  simp only [pages_setCur, hpg]
  rw [if_neg (by rw [current_page_setCur, current_match_setCur]; omega)]
  simp only [lookup_setCur, current_page_setCur, current_match_setCur,
    Int.toNat_ofNat, Bool.false_eq_true, if_false, hpg]
  rw [hidx]
  by_cases hj : 0 < x.2
  · rw [if_pos (by exact_mod_cast hj)]
    rw [show predPos (countsOf s) x = (x.1, x.2 - 1) from by
      simp [predPos, hj]]
    simp [SearchResult.setCur, hpg]
    omega
  · rw [if_neg (by exact_mod_cast hj)]
    by_cases hi : 0 < x.1
    · rw [if_pos hi]
      rw [hcnt (x.1 - 1) (by omega)]
      rw [show predPos (countsOf s) x =
          (x.1 - 1, cnt (countsOf s) (x.1 - 1) - 1) from by
        simp only [predPos, if_neg (by omega : ¬ 0 < x.2)]
        rw [if_pos hi]]
      have := hcpos (x.1 - 1) (by omega)
      simp [SearchResult.setCur, hpg]
      omega
    · rw [if_neg hi]
      rw [hcnt ((p0 :: rest).length - 1) (by simp)]
      rw [show predPos (countsOf s) x =
          ((countsOf s).length - 1,
            cnt (countsOf s) ((countsOf s).length - 1) - 1) from by
        simp only [predPos, if_neg (by omega : ¬ 0 < x.2), if_neg hi]]
      rw [hclen]
      have hlast := hcpos ((p0 :: rest).length - 1) (by simp)
      simp only [List.length_cons, Nat.add_sub_cancel] at hlast
      simp [SearchResult.setCur, hpg]
      omega
theorem navNext_iterate_true {α : Type} [Inhabited α] (s : SearchResult α)
    (hwf : s.WF) (hN : 0 < s.total_matches) (x : Nat × Nat)
    (hv : PosValid (countsOf s) x) (t : Nat) :
    (navNext true)^[t] (setCur s x) =
      setCur s ((succPos (countsOf s))^[t] x) := by
  induction t generalizing x with
  | zero => rfl
  | succ m ih =>
    rw [Function.iterate_succ_apply, Function.iterate_succ_apply,
      navNext_step_true s hwf hN x hv]
    exact ih _ (succPos_valid _ _ (countsOf_pos s hwf) hv)

theorem navNext_iterate_false {α : Type} [Inhabited α] (s : SearchResult α)
    (hwf : s.WF) (hN : 0 < s.total_matches) (x : Nat × Nat)
    (hv : PosValid (countsOf s) x) (t : Nat) :
    (navNext false)^[t] (setCur s x) =
      setCur s ((predPos (countsOf s))^[t] x) := by
  induction t generalizing x with
  | zero => rfl
  | succ m ih =>
    rw [Function.iterate_succ_apply, Function.iterate_succ_apply,
      navNext_step_false s hwf hN x hv]
    exact ih _ (predPos_valid _ _ (countsOf_pos s hwf) hv)

theorem goto_page_search {α : Type} (w : PDFViewWidget α) (i : Int) :
    (goto_page w i).2.search_results = w.search_results := by
  unfold goto_page
  rcases w.doc with _ | pgs
  · rfl
  · split_ifs <;> rfl

/-- The cursor movement of `find_next` is exactly `navigate_to_match` on the
widget's `search_results` (the rest of `find_next` only navigates pages and
refreshes the render cache). -/
theorem find_next_search {α : Type} [Inhabited α] (w : PDFViewWidget α)
    (fwd : Bool) :
    (find_next w fwd).2.search_results =
      (w.search_results.navigate_to_match fwd).2 := by
  unfold find_next
  by_cases h : w.search_results.has_results
  · rw [if_neg (by simp [h])]
    dsimp only
    split
    · split_ifs
      · rw [goto_page_search]
      · rfl
    · rfl
  · rw [if_pos (by simp [h])]
    unfold SearchResult.navigate_to_match
    rw [if_pos (by simp [h])]

/-- C1 (amended): for an active search in the pre-search cursor state, the
*first* `navigate_to_match` call (either direction) positions the cursor on
the first match — first rectangle of the lowest-indexed page with matches —
so returning to the first match takes `totalMatches` *further* calls: with
`N = totalMatches`, `N + 1` calls from the pre-search state (equivalently,
`N` calls from the first-match state that `search` establishes) land the
cursor back on the first match, in both directions; and the first `N` calls
visit every match exactly once, in the total cyclic order given by ascending
page index and, within a page, recorded (document text) order. -/
theorem C1_search_cycle_amended {α : Type} [Inhabited α]
    (s : SearchResult α) (hwf : s.WF) (hN : 0 < s.total_matches)
    (hreset : s.current_page < 0 ∨ s.current_match < 0) :
    cursorPair (navNext true s) = (((s.pages.getD 0 0 : Nat) : Int), 0) ∧
    cursorPair (navNext false s) = (((s.pages.getD 0 0 : Nat) : Int), 0) ∧
    cursorPair ((navNext true)^[s.total_matches + 1] s) =
      (((s.pages.getD 0 0 : Nat) : Int), 0) ∧
    cursorPair ((navNext false)^[s.total_matches + 1] s) =
      (((s.pages.getD 0 0 : Nat) : Int), 0) ∧
    (List.range s.total_matches).map
      (fun k => cursorPair ((navNext true)^[k + 1] s)) = allMatches s := by
  have hc := countsOf_pos s hwf
  have hsum := countsOf_sum s hwf
  have hspos : 0 < (countsOf s).sum := by rw [hsum]; exact hN
  have hcne : countsOf s ≠ [] := by
    intro h
    rw [h] at hspos
    simp at hspos
  have hdec0 : decode (countsOf s) 0 = (0, 0) :=
    decode_zero (countsOf s) hc hcne
  have hv0 : PosValid (countsOf s) (0, 0) := by
    rw [← hdec0]
    exact decode_valid (countsOf s) 0 hspos
  have hi_t := navNext_init true s hwf hN hreset
  have hi_f := navNext_init false s hwf hN hreset
  have hcyc : (succPos (countsOf s))^[s.total_matches] (0, 0) = (0, 0) := by
    conv_lhs => rw [← hdec0, ← hsum]
    rw [succ_iterate_cycle (countsOf s) hc hspos, hdec0]
  have hiterk : ∀ k,
      (navNext true)^[k + 1] s =
        setCur s ((succPos (countsOf s))^[k] (0, 0)) := by
    intro k
    rw [Function.iterate_succ_apply, hi_t]
    exact navNext_iterate_true s hwf hN (0, 0) hv0 k
  refine ⟨by rw [hi_t]; rfl, by rw [hi_f]; rfl, ?_, ?_, ?_⟩
  · rw [hiterk s.total_matches, hcyc]
    rfl
  · rw [Function.iterate_succ_apply, hi_f,
      navNext_iterate_false s hwf hN (0, 0) hv0 s.total_matches]
    have hpred : (predPos (countsOf s))^[s.total_matches] (0, 0) = (0, 0) := by
      conv_lhs => rw [← hcyc]
      exact pred_iterate_succ_iterate (countsOf s) (0, 0) hc hv0 s.total_matches
    rw [hpred]
    rfl
  · have hmapeq : ∀ k ∈ List.range s.total_matches,
        cursorPair ((navNext true)^[k + 1] s) =
          (((s.pages.getD (decode (countsOf s) k).1 0 : Nat) : Int),
            ((decode (countsOf s) k).2 : Int)) := by
      intro k hk
      rw [List.mem_range] at hk
      rw [hiterk k]
      conv_lhs => rw [show ((succPos (countsOf s))^[k] (0, 0)) =
        decode (countsOf s) k from by
          rw [← hdec0]
          exact succ_iterate (countsOf s) hc k (by omega)]
      rfl
    rw [List.map_congr_left hmapeq]
    have h2 : (List.range s.total_matches).map
        (fun k => (((s.pages.getD (decode (countsOf s) k).1 0 : Nat) : Int),
          ((decode (countsOf s) k).2 : Int))) =
        ((List.range (countsOf s).sum).map (decode (countsOf s))).map
          (fun q => (((s.pages.getD q.1 0 : Nat) : Int), (q.2 : Int))) := by
      rw [hsum, List.map_map]
      rfl
    rw [h2, range_map_decode]
    exact posEnum_map_getD s.pages (fun p => (s.lookup p).length)

/-- C1 counterexample: a search with `totalMatches = 2` (both matches on one
page).  The claim says 2 `findNext(forward=true)` calls from the pre-search
state return the cursor to the first match `(page 0, match 0)`; in the code
the first call merely *initialises* the cursor to the first match, so after
2 calls the cursor sits on the *last* match `(0, 1)`. -/
theorem C1_counterexample :
    exSearch2.total_matches = 2 ∧
    SearchResult.cursorPair (SearchResult.navNext true exSearch2) = (0, 0) ∧
    SearchResult.cursorPair
      ((SearchResult.navNext true)^[2] exSearch2) = (0, 1) ∧
    ((0 : Int), (1 : Int)) ≠ ((0 : Int), (0 : Int)) :=
  ⟨rfl, rfl, rfl, by decide⟩

theorem C1_witness :
    exSearch3.WF ∧ 0 < exSearch3.total_matches ∧
    SearchResult.cursorPair
        ((SearchResult.navNext true)^[exSearch3.total_matches + 1] exSearch3) =
      (((exSearch3.pages.getD 0 0 : Nat) : Int), 0) :=
  ⟨⟨by decide, by decide, by decide⟩, by decide,
   (C1_search_cycle_amended exSearch3 ⟨by decide, by decide, by decide⟩
     (by decide) (by decide)).2.2.1⟩
